import Mathlib

/-
Verification of `build_tools/prepare_mole.py` (pymole).

The script is a dependency-acquisition and native-build orchestrator.  We give
a shallow embedding: the filesystem is a pair of lists (directories present,
files with their contents), paths are lists of components, and every effectful
primitive the script uses (`urllib.request.urlretrieve`, `tarfile`/`zipfile`
extraction, `subprocess.check_call`, `shutil.move`, `shutil.rmtree`,
`os.makedirs`, `pathlib` `mkdir`) is an explicit state transformer.  External
nondeterminism (whether a fetch succeeds, what a downloaded archive contains,
the exit code of a delegated build command) is an `Env` oracle.  Fallible
steps return `Except PyErr`, matching Python exception propagation, and an
event trace records network fetches, archive extractions and subprocess
invocations so that "zero network operations" style properties are statable.
-/

set_option autoImplicit false
set_option maxRecDepth 100000

/-- Paths are lists of components, e.g. `["b", "temp_build"]` for `b/temp_build`. -/
abbrev FsPath := List String

/-- Render a path the way `os.path.join` would (used only to build the argv
strings handed to the external build toolchain). -/
def pathStr (p : FsPath) : String := String.intercalate "/" p

/-- `leads p q` holds when `p` is an initial segment of `q`: the directory `p`
is `q` itself or an ancestor of `q`. -/
def leads : FsPath → FsPath → Bool
  | [], _ => true
  | _ :: _, [] => false
  | a :: r, b :: s => a == b && leads r s

/-- The filesystem: directories present, and files present with their
contents.  Contents are opaque strings (for a downloaded file we use the
source URL as its content, which is enough to key archive extraction). -/
structure FS where
  dirs : List FsPath
  files : List (FsPath × String)
deriving DecidableEq

/-- Directory-presence check. -/
def isDir (fs : FS) (p : FsPath) : Bool := decide (p ∈ fs.dirs)

/-- File-presence check. -/
def isFile (fs : FS) (p : FsPath) : Bool := decide (p ∈ fs.files.map Prod.fst)

/-- `os.path.exists` / `pathlib` `exists`: any entry at the path. -/
def pathExists (fs : FS) (p : FsPath) : Bool := isDir fs p || isFile fs p

/-- Content of the file at `p`, if any. -/
def fileContent (fs : FS) (p : FsPath) : Option String :=
  (fs.files.find? fun e => decide (e.1 = p)).map Prod.snd

/-- Record a directory as present (no-op when already present). -/
def addDir (fs : FS) (p : FsPath) : FS :=
  if isDir fs p then fs else { fs with dirs := fs.dirs ++ [p] }

/-- Create or overwrite the file at `p` with content `c`. -/
def writeFile (fs : FS) (p : FsPath) (c : String) : FS :=
  { fs with files := (fs.files.filter fun e => decide (e.1 ≠ p)) ++ [(p, c)] }

/-- `pathlib` `unlink`: remove the file at `p`. -/
def removeFile (fs : FS) (p : FsPath) : FS :=
  { fs with files := fs.files.filter fun e => decide (e.1 ≠ p) }

/-- `shutil.rmtree`: remove the entry at `p` and everything below it. -/
def removeTree (fs : FS) (p : FsPath) : FS :=
  { dirs := fs.dirs.filter fun q => !(leads p q),
    files := fs.files.filter fun e => !(leads p e.1) }

/-- `os.rename` of a whole subtree: every entry at or under `s` is relocated
to the corresponding path under `d`; other entries are untouched. -/
def renameTree (fs : FS) (s d : FsPath) : FS :=
  { dirs := fs.dirs.map fun q => if leads s q then d ++ q.drop s.length else q,
    files := fs.files.map fun e =>
      if leads s e.1 then (d ++ e.1.drop s.length, e.2) else e }

/-- `shutil.move s d`: when `d` is an existing directory the source is moved
into it (landing at `d/basename s`); otherwise the source is renamed onto `d`,
overwriting an existing file there (POSIX `os.rename` semantics). -/
def move (fs : FS) (s d : FsPath) : FS :=
  if isDir fs d then renameTree fs s (d ++ [s.getLastD ""])
  else renameTree (removeTree fs d) s d

/-- `os.makedirs` helper: create `pre ++ p` and every intermediate directory. -/
def makedirsAux (fs : FS) (pre : FsPath) : FsPath → FS
  | [] => fs
  | c :: rest => makedirsAux (addDir fs (pre ++ [c])) (pre ++ [c]) rest

/-- `os.makedirs(p, exist_ok=True)`: create `p` and all missing ancestors. -/
def makedirs (fs : FS) (p : FsPath) : FS := makedirsAux fs [] p

/-- Names of the direct children of `p` (`os.listdir`), deduplicated. -/
def childNames (fs : FS) (p : FsPath) : List String :=
  ((fs.dirs ++ fs.files.map Prod.fst).filterMap fun q =>
    if q.length == p.length + 1 && leads p q then q.getLast? else none).dedup

/-- No entry lies at or below `d` (decidable freshness of a destination). -/
def noEntriesUnder (fs : FS) (d : FsPath) : Bool :=
  (fs.dirs ++ fs.files.map Prod.fst).all fun q => !(leads d q)

/-- Observable operations of one pipeline run: a network fetch
(`urllib.request.urlretrieve`), a tarball extraction, a zip extraction, and a
subprocess invocation (`subprocess.check_call`). -/
inductive Ev where
  | net (url : String) (dest : FsPath)
  | tarX (archive : FsPath) (dest : FsPath)
  | zipX (archive : FsPath) (dest : FsPath)
  | proc (cmd : List String)
deriving DecidableEq

/-- Errors the script can raise, per the spec's taxonomy: `FetchError`
(network failure, with URL and destination), `ExtractError` (corrupt or
unreadable archive), `CalledProcessError` (`BuildError`: failing command and
exit code), plus the `FileNotFoundError` / `FileExistsError` the filesystem
primitives raise. -/
inductive PyErr where
  | fetchError (url : String) (dest : FsPath)
  | extractError (archive : FsPath)
  | calledProcessError (cmd : List String) (code : Nat)
  | fileNotFound (p : FsPath)
  | fileExists (p : FsPath)
deriving DecidableEq

instance : DecidableEq (Except PyErr Unit) :=
  fun a b =>
    match a, b with
    | .ok (), .ok () => isTrue rfl
    | .ok (), .error _ => isFalse (fun h => Except.noConfusion h)
    | .error _, .ok () => isFalse (fun h => Except.noConfusion h)
    | .error e, .error f =>
      if h : e = f then isTrue (by rw [h])
      else isFalse (fun hh => h (Except.error.inj hh))

/-- Program state: the filesystem plus the event trace of the current run. -/
structure St where
  fs : FS
  trace : List Ev
deriving DecidableEq

/-- Append an event to the trace. -/
def emit (e : Ev) (st : St) : St := ⟨st.fs, st.trace ++ [e]⟩

/-- The contents of an archive, as relative paths rooted at the extraction
destination: directories and files with contents. -/
structure ArchiveData where
  adirs : List FsPath
  afiles : List (FsPath × String)
deriving DecidableEq

/-- External nondeterminism: whether a given URL can be fetched, what archive
a downloaded payload decodes to (`none` = corrupt/unreadable), and the exit
code of a delegated subprocess command. -/
structure Env where
  fetchOK : String → Bool
  tarArchive : String → Option ArchiveData
  zipArchive : String → Option ArchiveData
  exitCode : List String → Nat

/-- `urllib.request.urlretrieve url dest`: always a network operation; on
success the payload (keyed by its URL) is written to `dest`, otherwise a
`FetchError` is raised. -/
def urlretrieve (env : Env) (url : String) (dest : FsPath) (st : St) :
    Except PyErr Unit × St :=
  let st := emit (.net url dest) st
  if env.fetchOK url then (.ok (), ⟨writeFile st.fs dest url, st.trace⟩)
  else (.error (.fetchError url dest), st)

/-- Unpack `a` into `target`: create `target`, the archive's directories, and
its files (`extractall`). -/
def extractInto (fs : FS) (target : FsPath) (a : ArchiveData) : FS :=
  let fs := makedirs fs target
  let fs := a.adirs.foldl (fun acc r => makedirs acc (target ++ r)) fs
  a.afiles.foldl (fun acc e => writeFile acc (target ++ e.1) e.2) fs

/-- `tarfile.open(archive); tar.extractall(target)`: raises if the archive
file is missing or unreadable, else unpacks everything into `target`. -/
def tar_extractall (env : Env) (archive target : FsPath) (st : St) :
    Except PyErr Unit × St :=
  match fileContent st.fs archive with
  | none => (.error (.fileNotFound archive), st)
  | some c =>
    match env.tarArchive c with
    | none => (.error (.extractError archive), st)
    | some a => (.ok (), ⟨extractInto st.fs target a, st.trace ++ [.tarX archive target]⟩)

/-- `zipfile.ZipFile(archive); zip_ref.extractall(target)`: same shape as the
tarball case, for the zip container. -/
def zip_extractall (env : Env) (archive target : FsPath) (st : St) :
    Except PyErr Unit × St :=
  match fileContent st.fs archive with
  | none => (.error (.fileNotFound archive), st)
  | some c =>
    match env.zipArchive c with
    | none => (.error (.extractError archive), st)
    | some a => (.ok (), ⟨extractInto st.fs target a, st.trace ++ [.zipX archive target]⟩)

/-- `subprocess.check_call cmd`: runs the command (recorded in the trace) and
raises `CalledProcessError` carrying the command and its code when the exit
status is non-zero. -/
def check_call (env : Env) (cmd : List String) (st : St) :
    Except PyErr Unit × St :=
  let st := emit (.proc cmd) st
  if env.exitCode cmd = 0 then (.ok (), st)
  else (.error (.calledProcessError cmd (env.exitCode cmd)), st)

/-- `pathlib` `mkdir(exist_ok=True)`: a no-op when the directory exists,
raises `FileExistsError` when a non-directory occupies the path. -/
def mkdir_exist_ok (fs : FS) (p : FsPath) : Except PyErr FS :=
  if isFile fs p then .error (.fileExists p) else .ok (addDir fs p)

/-- Constant `ARMADILLO_SOURCE` of `prepare_mole.py`. -/
def ARMADILLO_SOURCE : String :=
  "https://sourceforge.net/projects/arma/files/armadillo-12.6.6.tar.xz"

/-- Constant `MOLE_REPO` of `prepare_mole.py`. -/
def MOLE_REPO : String :=
  "https://github.com/csrc-sdsu/mole/archive/refs/heads/main.zip"

/-- Constant `MOLE_DIR` of `prepare_mole.py`. -/
def MOLE_DIR : String := "mole-main"

/-- The fixed CMake configure argv of `build_armadillo` (lines 21-28). -/
def cmake_configure_cmd (source_dir build_dir : FsPath) : List String :=
  ["cmake", "-S", pathStr source_dir, "-B", pathStr build_dir,
   "-DARMADILLO_USE_SUPERLU=ON", "-DARMADILLO_USE_OPENMP=ON",
   "-DCMAKE_POLICY_VERSION_MINIMUM=3.5"]

/-- The fixed CMake compile argv of `build_armadillo` (line 33). -/
def cmake_build_cmd (build_dir : FsPath) : List String :=
  ["cmake", "--build", pathStr build_dir, "--config", "Release"]

/-- Sequencing of two fallible statements, Python style: if the first raises,
the exception propagates with the state at the raise point; otherwise the
second runs on the updated state. -/
def pySeq {A B : Type} (x : Except PyErr A × St)
    (f : A → St → Except PyErr B × St) : Except PyErr B × St :=
  match x with
  | (.error e, st) => (.error e, st)
  | (.ok a, st) => f a st

/-- `build_armadillo(source_dir)` (lines 15-36): creates the `build` marker
directory up front with `os.makedirs(exist_ok=True)`, then runs the CMake
configure phase and the CMake compile phase synchronously, each required to
exit with status 0. -/
def build_armadillo (env : Env) (source_dir : FsPath) (st : St) :
    Except PyErr Bool × St :=
  let build_dir := source_dir ++ ["build"]
  let st : St := ⟨makedirs st.fs build_dir, st.trace⟩
  pySeq (check_call env (cmake_configure_cmd source_dir build_dir) st) fun _ st =>
    pySeq (check_call env (cmake_build_cmd build_dir) st) fun _ st =>
      (.ok true, st)

/-- `download_dependencies(temp_dir, target_dir)` (lines 38-68): fetch the
Armadillo tarball into `temp_dir` unless it is already present, extract it
into `target_dir` unless `target_dir/armadillo-12.6.6` already exists, and
build it unless `target_dir/armadillo-12.6.6/build` already exists. -/
def download_dependencies (env : Env) (temp_dir target_dir : FsPath) (st : St) :
    Except PyErr Bool × St :=
  let archive_name := temp_dir ++ ["armadillo-12.6.6.tar.xz"]
  let package_dir := target_dir ++ ["armadillo-12.6.6"]
  pySeq (if pathExists st.fs archive_name then (.ok (), st)
         else urlretrieve env ARMADILLO_SOURCE archive_name st) fun _ st =>
    pySeq (if pathExists st.fs package_dir then (.ok (), st)
           else tar_extractall env archive_name target_dir st) fun _ st =>
      if pathExists st.fs (package_dir ++ ["build"]) then (.ok true, st)
      else build_armadillo env package_dir st

/-- `download_mole(target_dir)` (lines 71-84): unconditionally fetch the MOLE
zip to `target_dir/mole.zip`, unconditionally extract it into `target_dir`,
then delete the zip file. -/
def download_mole (env : Env) (target_dir : FsPath) (st : St) :
    Except PyErr Unit × St :=
  let zip_path := target_dir ++ ["mole.zip"]
  pySeq (urlretrieve env MOLE_REPO zip_path st) fun _ st =>
    pySeq (zip_extractall env zip_path target_dir st) fun _ st =>
      (.ok (), ⟨removeFile st.fs zip_path, st.trace⟩)

/-- One iteration of the move loop of `copy_mole_sources` applied to the
listed child names: `shutil.move(src/item, dst/item)` for each. -/
def move_items (fs : FS) (src dst : FsPath) : List String → FS
  | [] => fs
  | item :: rest => move_items (move fs (src ++ [item]) (dst ++ [item])) src dst rest

/-- `copy_mole_sources(source_dir, target_dir)` (lines 86-101): ensure
`target_dir/cpp` exists, then move every direct child of
`source_dir/mole-main/src/cpp` into it by name.  `os.listdir` raises
`FileNotFoundError` when the source subpath is absent.  The inner
`if not os.path.exists(cpp_dir): os.makedirs(cpp_dir)` of the source is dead
after the `mkdir` and is translated as written. -/
def copy_mole_sources (source_dir target_dir : FsPath) (st : St) :
    Except PyErr Unit × St :=
  let cpp_dir := target_dir ++ ["cpp"]
  match mkdir_exist_ok st.fs cpp_dir with
  | .error e => (.error e, st)
  | .ok fs1 =>
    let mole_cpp_dir := source_dir ++ [MOLE_DIR, "src", "cpp"]
    let fs2 := if pathExists fs1 cpp_dir then fs1 else makedirs fs1 cpp_dir
    if pathExists fs2 mole_cpp_dir then
      (.ok (), ⟨move_items fs2 mole_cpp_dir cpp_dir (childNames fs2 mole_cpp_dir), st.trace⟩)
    else (.error (.fileNotFound mole_cpp_dir), ⟨fs2, st.trace⟩)

/-- The body of the `try` block of `prepare_mole` (lines 114-122):
dependencies, MOLE download, staging, in strict sequence. -/
def pipeline_body (env : Env) (temp_dir target_dir : FsPath) (st : St) :
    Except PyErr Unit × St :=
  pySeq (download_dependencies env temp_dir (target_dir ++ ["cpp"]) st) fun _ st =>
    pySeq (download_mole env temp_dir st) fun _ st =>
      copy_mole_sources temp_dir target_dir st

/-- `prepare_mole(base_dir)` (lines 103-126): create `base_dir/temp_build`,
run the pipeline body, and in a `finally` clause remove `temp_build`
(if it exists) whatever the outcome. -/
def prepare_mole (env : Env) (base_dir : FsPath) (st : St) :
    Except PyErr Unit × St :=
  let temp_dir := base_dir ++ ["temp_build"]
  let target_dir := base_dir ++ ["src", "pymole", "cpp"]
  match mkdir_exist_ok st.fs temp_dir with
  | .error e => (.error e, st)
  | .ok fs1 =>
    match pipeline_body env temp_dir target_dir ⟨fs1, st.trace⟩ with
    | (r, st2) =>
      if pathExists st2.fs temp_dir then (r, ⟨removeTree st2.fs temp_dir, st2.trace⟩)
      else (r, st2)

/-- Number of network fetch events in a trace. -/
def netCount (l : List Ev) : Nat :=
  l.countP fun e => match e with | .net _ _ => true | _ => false

/-- Number of subprocess (build toolchain) invocations in a trace. -/
def procCount (l : List Ev) : Nat :=
  l.countP fun e => match e with | .proc _ => true | _ => false

/-- Number of tarball extractions in a trace. -/
def tarCount (l : List Ev) : Nat :=
  l.countP fun e => match e with | .tarX _ _ => true | _ => false

/-- Number of zip extractions in a trace. -/
def zipCount (l : List Ev) : Nat :=
  l.countP fun e => match e with | .zipX _ _ => true | _ => false

/-- Contents of the Armadillo tarball in the concrete scenario. -/
def armaData : ArchiveData :=
  ⟨[["armadillo-12.6.6"], ["armadillo-12.6.6", "include"]],
   [(["armadillo-12.6.6", "CMakeLists.txt"], "cmakelists"),
    (["armadillo-12.6.6", "include", "armadillo"], "armaheader")]⟩

/-- Contents of the MOLE branch zip in the concrete scenario: `src/cpp` holds
two files and one subdirectory `utils` containing a single file. -/
def moleData : ArchiveData :=
  ⟨[["mole-main"], ["mole-main", "src"], ["mole-main", "src", "cpp"],
    ["mole-main", "src", "cpp", "utils"]],
   [(["mole-main", "src", "cpp", "mole.cpp"], "molecpp"),
    (["mole-main", "src", "cpp", "mole.h"], "moleh"),
    (["mole-main", "src", "cpp", "utils", "u.cpp"], "utilcpp")]⟩

/-- A benign environment: every fetch succeeds, both archives decode to the
expected trees, every subprocess exits 0. -/
def goodEnv : Env :=
  ⟨fun _ => true,
   fun c => if c = ARMADILLO_SOURCE then some armaData else none,
   fun c => if c = MOLE_REPO then some moleData else none,
   fun _ => 0⟩

/-- Base directory of the concrete scenario. -/
def base0 : FsPath := ["b"]

/-- Initial state of the concrete scenario: empty filesystem, empty trace. -/
def st0 : St := ⟨⟨[], []⟩, []⟩

/-- Scratch workspace path of the concrete scenario. -/
def tempP : FsPath := ["b", "temp_build"]

/-- `target_dir` of `prepare_mole` in the concrete scenario. -/
def targetP : FsPath := ["b", "src", "pymole", "cpp"]

/-- The staging destination `target_dir/cpp` (also the directory the
Armadillo tarball is extracted into, since `prepare_mole` passes
`target_dir / "cpp"` to `download_dependencies`). -/
def stageP : FsPath := ["b", "src", "pymole", "cpp", "cpp"]

/-- The extracted Armadillo tree in the concrete scenario. -/
def pkgP : FsPath := ["b", "src", "pymole", "cpp", "cpp", "armadillo-12.6.6"]

/-- First end-to-end run from the empty state. -/
def run1 : Except PyErr Unit × St := prepare_mole goodEnv base0 st0

/-- State left by the first run. -/
def st1 : St := run1.2

/-- Second end-to-end run over the state left by the first, with a fresh
trace so that its operation counts are those of the second run alone. -/
def run2 : Except PyErr Unit × St := prepare_mole goodEnv base0 ⟨st1.fs, []⟩

/-- A state whose `t/mole.zip` already exists (stale content), used to refute
the skip-on-presence claim for the MOLE fetch. -/
def staleZipSt : St := ⟨⟨[["t"]], [(["t", "mole.zip"], "stale")]⟩, []⟩

/-- A state whose Armadillo tarball is already present. -/
def tarSt : St := ⟨⟨[], [(["t", "armadillo-12.6.6.tar.xz"], "x")]⟩, []⟩

/-- A state where the expected MOLE output directory `t/mole-main` already
exists before `download_mole` runs. -/
def molePresentSt : St := ⟨⟨[["t"], ["t", "mole-main"]], []⟩, []⟩

/-- A state with the Armadillo extraction marker present. -/
def pkgSt : St := ⟨⟨[["g2", "armadillo-12.6.6"]], []⟩, []⟩

/-- A state holding a readable Armadillo tarball at `t/a`. -/
def wtarSt : St := ⟨⟨[], [(["t", "a"], ARMADILLO_SOURCE)]⟩, []⟩

/-- A state where all three Armadillo idempotency markers exist. -/
def ddSkipSt : St :=
  ⟨⟨[["g3", "armadillo-12.6.6"], ["g3", "armadillo-12.6.6", "build"]],
    [(["t3", "armadillo-12.6.6.tar.xz"], "x")]⟩, []⟩

/-- Like `ddSkipSt` but without the build marker. -/
def ddNoBuildSt : St :=
  ⟨⟨[["g3", "armadillo-12.6.6"]], [(["t3", "armadillo-12.6.6.tar.xz"], "x")]⟩, []⟩

/-- An environment in which every network fetch fails. -/
def badEnv : Env := ⟨fun _ => false, fun _ => none, fun _ => none, fun _ => 0⟩

/-- An environment in which the compile phase for `p/build` exits 2 and
everything else succeeds. -/
def bfEnv : Env :=
  ⟨fun _ => true, fun _ => none, fun _ => none,
   fun c => if c = cmake_build_cmd (["p"] ++ ["build"]) then 2 else 0⟩

/-- An environment in which the configure phase for `p/build` exits 3. -/
def cfEnv : Env :=
  ⟨fun _ => true, fun _ => none, fun _ => none,
   fun c => if c = cmake_configure_cmd ["p"] (["p"] ++ ["build"]) then 3 else 0⟩

/-- A filesystem holding a fetched MOLE tree whose `src/cpp` has one file. -/
def stageSrcSt : St :=
  ⟨⟨[["s"], ["s", "mole-main"], ["s", "mole-main", "src"],
     ["s", "mole-main", "src", "cpp"]],
    [(["s", "mole-main", "src", "cpp", "a.cpp"], "A")]⟩, []⟩

/-- First staging over `stageSrcSt`. -/
def stageOnce : Except PyErr Unit × St := copy_mole_sources ["s"] ["d"] stageSrcSt

/-- Second staging over the state left by the first. -/
def stageTwice : Except PyErr Unit × St :=
  copy_mole_sources ["s"] ["d"] stageOnce.2

/-- Propositional form of destination freshness: no entry lies at or below
`d`. -/
def FreshUnder (fs : FS) (d : FsPath) : Prop :=
  ∀ p, leads d p = true → pathExists fs p = false

theorem leads_refl (p : FsPath) : leads p p = true := by
  induction p with
  | nil => rfl
  | cons a r ih => simp [leads, ih]

theorem leads_append_right (p q : FsPath) : leads p (p ++ q) = true := by
  induction p with
  | nil => rfl
  | cons a r ih => simp [leads, ih]

theorem leads_iff {p q : FsPath} : leads p q = true ↔ ∃ r, q = p ++ r := by
  induction p generalizing q with
  | nil => simp [leads]
  | cons a r ih =>
    cases q with
    | nil => simp [leads]
    | cons b s =>
      simp only [leads, Bool.and_eq_true, beq_iff_eq, ih, List.cons_append]
      constructor
      · rintro ⟨rfl, t, rfl⟩; exact ⟨t, rfl⟩
      · rintro ⟨t, h⟩
        injection h with h1 h2
        exact ⟨h1.symm ▸ rfl, t, h2⟩

theorem leads_trans {p q r : FsPath} (hpq : leads p q = true)
    (hqr : leads q r = true) : leads p r = true := by
  rcases leads_iff.mp hpq with ⟨u, rfl⟩
  rcases leads_iff.mp hqr with ⟨v, rfl⟩
  rw [List.append_assoc]
  exact leads_append_right _ _

theorem leads_length {p q : FsPath} (h : leads p q = true) :
    p.length ≤ q.length := by
  rcases leads_iff.mp h with ⟨r, rfl⟩
  simp

theorem leads_append_same (r p q : FsPath) :
    leads (r ++ p) (r ++ q) = leads p q := by
  induction r with
  | nil => rfl
  | cons a s ih => simp [leads, ih]

theorem leads_total {p q r : FsPath} (hp : leads p r = true)
    (hq : leads q r = true) : leads p q = true ∨ leads q p = true := by
  induction r generalizing p q with
  | nil =>
    rcases leads_iff.mp hp with ⟨u, hu⟩
    rcases List.append_eq_nil.mp hu.symm with ⟨rfl, -⟩
    exact Or.inl rfl
  | cons a s ih =>
    cases p with
    | nil => exact Or.inl rfl
    | cons b t =>
      cases q with
      | nil => exact Or.inr rfl
      | cons c u =>
        simp only [leads, Bool.and_eq_true, beq_iff_eq] at hp hq ⊢
        rcases hp with ⟨rfl, hp⟩
        rcases hq with ⟨rfl, hq⟩
        rcases ih hp hq with h | h
        · exact Or.inl ⟨rfl, h⟩
        · exact Or.inr ⟨rfl, h⟩

/-- Two trees with incomparable roots have no entry in common: nothing under
`a` is under `b`. -/
theorem leads_disjoint {a b : FsPath} (hab : leads a b = false)
    (hba : leads b a = false) (u v : FsPath) :
    leads (a ++ u) (b ++ v) = false := by
  by_contra h
  have h' : leads (a ++ u) (b ++ v) = true := by
    cases hx : leads (a ++ u) (b ++ v) with
    | false => exact absurd hx h
    | true => rfl
  have ha : leads a (b ++ v) = true :=
    leads_trans (leads_append_right a u) h'
  have hb : leads b (b ++ v) = true := leads_append_right b v
  rcases leads_total ha hb with hc | hc
  · rw [hab] at hc; cases hc
  · rw [hba] at hc; cases hc

/-- Children of the same directory with different names root disjoint trees. -/
theorem leads_sibling {r : FsPath} {n m : String} (hnm : n ≠ m) (u v : FsPath) :
    leads (r ++ n :: u) (r ++ m :: v) = false := by
  rw [leads_append_same]
  simp [leads, hnm]

theorem leads_nil_right {p : FsPath} (h : leads p [] = true) : p = [] := by
  cases p with
  | nil => rfl
  | cons a r => simp [leads] at h

theorem pySeq_ok {A B : Type} (a : A) (st : St)
    (f : A → St → Except PyErr B × St) : pySeq (.ok a, st) f = f a st := rfl

theorem pySeq_err {A B : Type} (e : PyErr) (st : St)
    (f : A → St → Except PyErr B × St) :
    pySeq ((.error e : Except PyErr A), st) f = (.error e, st) := rfl

theorem pathExists_removeTree_self (fs : FS) (p : FsPath) :
    pathExists (removeTree fs p) p = false := by
  simp [pathExists, removeTree, isDir, isFile, List.mem_filter, List.mem_map,
    leads_refl]

theorem prepare_mole_cleanup_core (env : Env) (base_dir : FsPath) (st : St)
    (h : isFile st.fs (base_dir ++ ["temp_build"]) = false) :
    pathExists (prepare_mole env base_dir st).2.fs
      (base_dir ++ ["temp_build"]) = false := by
  have hm : mkdir_exist_ok st.fs (base_dir ++ ["temp_build"]) =
      .ok (addDir st.fs (base_dir ++ ["temp_build"])) := by
    unfold mkdir_exist_ok
    rw [h]
    rfl
  simp only [prepare_mole]
  rw [hm]
  rcases hpb : pipeline_body env (base_dir ++ ["temp_build"])
      (base_dir ++ ["src", "pymole", "cpp"])
      ⟨addDir st.fs (base_dir ++ ["temp_build"]), st.trace⟩ with ⟨r, st2⟩
  simp only
  split
  · exact pathExists_removeTree_self _ _
  · rename_i hc
    simpa using hc

/-- The outcome of `prepare_mole` is exactly the outcome of its `try` body:
the `finally` clause only removes the workspace and re-raises unchanged. -/
theorem prepare_mole_fst (env : Env) (base_dir : FsPath) (st : St)
    (h : isFile st.fs (base_dir ++ ["temp_build"]) = false) :
    (prepare_mole env base_dir st).1
      = (pipeline_body env (base_dir ++ ["temp_build"])
          (base_dir ++ ["src", "pymole", "cpp"])
          ⟨addDir st.fs (base_dir ++ ["temp_build"]), st.trace⟩).1 := by
  have hm : mkdir_exist_ok st.fs (base_dir ++ ["temp_build"]) =
      .ok (addDir st.fs (base_dir ++ ["temp_build"])) := by
    unfold mkdir_exist_ok
    rw [h]
    rfl
  simp only [prepare_mole]
  rw [hm]
  rcases hpb : pipeline_body env (base_dir ++ ["temp_build"])
      (base_dir ++ ["src", "pymole", "cpp"])
      ⟨addDir st.fs (base_dir ++ ["temp_build"]), st.trace⟩ with ⟨r, st2⟩
  simp only
  split <;> rw [hpb]

/-- Claim C1: on every exit path of `prepare_mole` — normal completion or an
exception raised by any pipeline stage (dependency fetch, extraction, build,
MOLE download, or staging) — the scratch workspace directory
`base_dir/temp_build` does not exist after `prepare_mole` returns control or
re-raises.  (The hypothesis rules out a pre-existing regular file at the
workspace path, in which case the initial `mkdir` itself would raise before
the `try` block is even entered.) -/
theorem prepare_mole_cleanup (env : Env) (base_dir : FsPath) (st : St)
    (h : isFile st.fs (base_dir ++ ["temp_build"]) = false) :
    pathExists (prepare_mole env base_dir st).2.fs
      (base_dir ++ ["temp_build"]) = false :=
  prepare_mole_cleanup_core env base_dir st h

/-- Witness for C1 at a concrete input. -/
theorem prepare_mole_cleanup_witness :
    isFile st0.fs (base0 ++ ["temp_build"]) = false ∧
    pathExists (prepare_mole goodEnv base0 st0).2.fs
      (base0 ++ ["temp_build"]) = false :=
  ⟨by decide, prepare_mole_cleanup goodEnv base0 st0 (by decide)⟩

theorem netCount_append (l1 l2 : List Ev) :
    netCount (l1 ++ l2) = netCount l1 + netCount l2 :=
  List.countP_append _ _ _

theorem tarCount_append (l1 l2 : List Ev) :
    tarCount (l1 ++ l2) = tarCount l1 + tarCount l2 :=
  List.countP_append _ _ _

theorem zipCount_append (l1 l2 : List Ev) :
    zipCount (l1 ++ l2) = zipCount l1 + zipCount l2 :=
  List.countP_append _ _ _

theorem netCount_proc (cmd : List String) : netCount [Ev.proc cmd] = 0 := rfl

theorem netCount_tarX (a t : FsPath) : netCount [Ev.tarX a t] = 0 := rfl

theorem netCount_zipX (a t : FsPath) : netCount [Ev.zipX a t] = 0 := rfl

theorem netCount_netE (u : String) (d : FsPath) : netCount [Ev.net u d] = 1 := rfl

theorem tarCount_proc (cmd : List String) : tarCount [Ev.proc cmd] = 0 := rfl

theorem tarCount_tarX (a t : FsPath) : tarCount [Ev.tarX a t] = 1 := rfl

theorem tarCount_zipX (a t : FsPath) : tarCount [Ev.zipX a t] = 0 := rfl

theorem tarCount_netE (u : String) (d : FsPath) : tarCount [Ev.net u d] = 0 := rfl

theorem zipCount_proc (cmd : List String) : zipCount [Ev.proc cmd] = 0 := rfl

theorem zipCount_tarX (a t : FsPath) : zipCount [Ev.tarX a t] = 0 := rfl

theorem zipCount_zipX (a t : FsPath) : zipCount [Ev.zipX a t] = 1 := rfl

theorem zipCount_netE (u : String) (d : FsPath) : zipCount [Ev.net u d] = 0 := rfl

theorem check_call_trace (env : Env) (cmd : List String) (st : St) :
    (check_call env cmd st).2.trace = st.trace ++ [Ev.proc cmd] := by
  unfold check_call emit
  split <;> rfl

theorem urlretrieve_trace (env : Env) (url : String) (dest : FsPath) (st : St) :
    (urlretrieve env url dest st).2.trace = st.trace ++ [Ev.net url dest] := by
  unfold urlretrieve emit
  split <;> rfl

theorem netCount_tar_extractall (env : Env) (a t : FsPath) (st : St) :
    netCount (tar_extractall env a t st).2.trace = netCount st.trace := by
  unfold tar_extractall
  split
  · rfl
  · split
    · rfl
    · show netCount (st.trace ++ [Ev.tarX a t]) = netCount st.trace
      rw [netCount_append, netCount_tarX]
      omega

theorem netCount_zip_extractall (env : Env) (a t : FsPath) (st : St) :
    netCount (zip_extractall env a t st).2.trace = netCount st.trace := by
  unfold zip_extractall
  split
  · rfl
  · split
    · rfl
    · show netCount (st.trace ++ [Ev.zipX a t]) = netCount st.trace
      rw [netCount_append, netCount_zipX]
      omega

theorem netCount_check_call (env : Env) (cmd : List String) (st : St) :
    netCount (check_call env cmd st).2.trace = netCount st.trace := by
  rw [check_call_trace, netCount_append, netCount_proc]
  omega

theorem netCount_build_armadillo (env : Env) (source_dir : FsPath) (st : St) :
    netCount (build_armadillo env source_dir st).2.trace = netCount st.trace := by
  unfold build_armadillo
  rcases h1 : check_call env
      (cmake_configure_cmd source_dir (source_dir ++ ["build"]))
      ⟨makedirs st.fs (source_dir ++ ["build"]), st.trace⟩ with ⟨r1, stA⟩
  have ht1 : stA.trace = st.trace ++
      [Ev.proc (cmake_configure_cmd source_dir (source_dir ++ ["build"]))] := by
    have := check_call_trace env
      (cmake_configure_cmd source_dir (source_dir ++ ["build"]))
      ⟨makedirs st.fs (source_dir ++ ["build"]), st.trace⟩
    rw [h1] at this
    exact this
  cases r1 with
  | error e =>
    simp only [h1, pySeq_err]
    rw [ht1, netCount_append, netCount_proc]
    omega
  | ok _ =>
    simp only [h1, pySeq_ok]
    rcases h2 : check_call env (cmake_build_cmd (source_dir ++ ["build"])) stA
      with ⟨r2, stB⟩
    have ht2 : stB.trace = stA.trace ++
        [Ev.proc (cmake_build_cmd (source_dir ++ ["build"]))] := by
      have := check_call_trace env (cmake_build_cmd (source_dir ++ ["build"])) stA
      rw [h2] at this
      exact this
    cases r2 <;>
      simp only [h2, pySeq_err, pySeq_ok] <;>
      rw [ht2, netCount_append, netCount_proc, ht1, netCount_append,
        netCount_proc] <;> omega

theorem snoc_ne_of_ne {a b : String} (h : a ≠ b) (p q : FsPath) :
    p ++ [a] ≠ q ++ [b] := by
  intro hc
  have h2 := congrArg List.getLast? hc
  rw [List.getLast?_concat, List.getLast?_concat] at h2
  exact h (Option.some.inj h2)

theorem pathExists_writeFile_ne (fs : FS) (p : FsPath) (c : String)
    (q : FsPath) (h : q ≠ p) :
    pathExists (writeFile fs p c) q = pathExists fs q := by
  simp only [pathExists, writeFile, isDir, isFile]
  congr 1
  rw [decide_eq_decide]
  simp only [List.map_append, List.mem_append, List.mem_map, List.mem_filter,
    List.map_cons, List.map_nil, List.mem_singleton, decide_eq_true_eq]
  constructor
  · rintro (⟨e, ⟨he, -⟩, rfl⟩ | hq)
    · exact ⟨e, he, rfl⟩
    · exact absurd hq h
  · rintro ⟨e, he, rfl⟩
    exact Or.inl ⟨e, ⟨he, h⟩, rfl⟩

theorem fileContent_writeFile_self (fs : FS) (p : FsPath) (c : String) :
    fileContent (writeFile fs p c) p = some c := by
  unfold fileContent writeFile
  rw [List.find?_append]
  have h1 : (fs.files.filter fun e => decide (e.1 ≠ p)).find?
      (fun e => decide (e.1 = p)) = none := by
    rw [List.find?_eq_none]
    intro e he
    rw [List.mem_filter] at he
    simp only [decide_eq_true_eq] at he ⊢
    exact he.2
  rw [h1]
  simp [List.find?]

theorem urlretrieve_ok {env : Env} {url : String} (h : env.fetchOK url = true)
    (dest : FsPath) (st : St) :
    urlretrieve env url dest st
      = (.ok (), ⟨writeFile st.fs dest url, st.trace ++ [Ev.net url dest]⟩) := by
  simp [urlretrieve, emit, h]

theorem urlretrieve_err {env : Env} {url : String} (h : env.fetchOK url = false)
    (dest : FsPath) (st : St) :
    urlretrieve env url dest st
      = (.error (.fetchError url dest), ⟨st.fs, st.trace ++ [Ev.net url dest]⟩) := by
  simp [urlretrieve, emit, h]

theorem check_call_ok {env : Env} {cmd : List String}
    (h : env.exitCode cmd = 0) (st : St) :
    check_call env cmd st = (.ok (), ⟨st.fs, st.trace ++ [Ev.proc cmd]⟩) := by
  simp [check_call, emit, h]

theorem check_call_err {env : Env} {cmd : List String} {k : Nat}
    (h : env.exitCode cmd = k) (hk : k ≠ 0) (st : St) :
    check_call env cmd st
      = (.error (.calledProcessError cmd k), ⟨st.fs, st.trace ++ [Ev.proc cmd]⟩) := by
  simp [check_call, emit, h, hk]

/-- The build step only ever appends subprocess events to the trace. -/
theorem build_armadillo_trace (env : Env) (source_dir : FsPath) (st : St) :
    ∃ l, (build_armadillo env source_dir st).2.trace = st.trace ++ l ∧
      netCount l = 0 ∧ tarCount l = 0 ∧ zipCount l = 0 := by
  unfold build_armadillo
  rcases h1 : check_call env
      (cmake_configure_cmd source_dir (source_dir ++ ["build"]))
      ⟨makedirs st.fs (source_dir ++ ["build"]), st.trace⟩ with ⟨r1, stA⟩
  have ht1 : stA.trace = st.trace ++
      [Ev.proc (cmake_configure_cmd source_dir (source_dir ++ ["build"]))] := by
    have := check_call_trace env
      (cmake_configure_cmd source_dir (source_dir ++ ["build"]))
      ⟨makedirs st.fs (source_dir ++ ["build"]), st.trace⟩
    rw [h1] at this
    exact this
  cases r1 with
  | error e =>
    exact ⟨[Ev.proc (cmake_configure_cmd source_dir (source_dir ++ ["build"]))],
      by simp only [h1, pySeq_err]; exact ht1, rfl, rfl, rfl⟩
  | ok _ =>
    rcases h2 : check_call env (cmake_build_cmd (source_dir ++ ["build"])) stA
      with ⟨r2, stB⟩
    have ht2 : stB.trace = st.trace ++
        [Ev.proc (cmake_configure_cmd source_dir (source_dir ++ ["build"])),
         Ev.proc (cmake_build_cmd (source_dir ++ ["build"]))] := by
      have := check_call_trace env (cmake_build_cmd (source_dir ++ ["build"])) stA
      rw [h2] at this
      rw [this, ht1, List.append_assoc]
      rfl
    cases r2 with
    | error e =>
      exact ⟨[Ev.proc (cmake_configure_cmd source_dir (source_dir ++ ["build"])),
        Ev.proc (cmake_build_cmd (source_dir ++ ["build"]))],
        by simp only [h1, pySeq_ok, h2, pySeq_err]; exact ht2, rfl, rfl, rfl⟩
    | ok _ =>
      exact ⟨[Ev.proc (cmake_configure_cmd source_dir (source_dir ++ ["build"])),
        Ev.proc (cmake_build_cmd (source_dir ++ ["build"]))],
        by simp only [h1, pySeq_ok, h2, pySeq_ok]; exact ht2, rfl, rfl, rfl⟩

theorem isDir_addDir_self (fs : FS) (p : FsPath) :
    isDir (addDir fs p) p = true := by
  unfold addDir
  split
  · assumption
  · simp [isDir, List.mem_append]

theorem isDir_addDir_mono {fs : FS} {q : FsPath} (p : FsPath)
    (h : isDir fs q = true) : isDir (addDir fs p) q = true := by
  unfold addDir
  split
  · exact h
  · simp only [isDir, decide_eq_true_eq] at h ⊢
    simp [List.mem_append, h]

theorem makedirsAux_isDir : ∀ (p : FsPath) (fs : FS) (pre : FsPath),
    p ≠ [] → isDir (makedirsAux fs pre p) (pre ++ p) = true := by
  intro p
  induction p with
  | nil => intro fs pre h; exact absurd rfl h
  | cons c rest ih =>
    intro fs pre _
    cases rest with
    | nil => exact isDir_addDir_self fs (pre ++ [c])
    | cons c2 r2 =>
      have hpath : pre ++ c :: c2 :: r2 = (pre ++ [c]) ++ (c2 :: r2) := by simp
      rw [show makedirsAux fs pre (c :: c2 :: r2)
          = makedirsAux (addDir fs (pre ++ [c])) (pre ++ [c]) (c2 :: r2) from rfl,
        hpath]
      exact ih (addDir fs (pre ++ [c])) (pre ++ [c]) (by simp)

theorem isDir_makedirs_self (fs : FS) (p : FsPath) (h : p ≠ []) :
    isDir (makedirs fs p) p = true := by
  have := makedirsAux_isDir p fs [] h
  simpa using this

/-- Claim C3, counterexample: the destination archive `t/mole.zip` exists
before `download_mole` runs, yet a network transfer is still performed
(one network event, where the claim requires zero). -/
theorem mole_fetch_despite_existing_zip :
    isFile staleZipSt.fs (["t"] ++ ["mole.zip"]) = true ∧
    netCount (download_mole goodEnv ["t"] staleZipSt).2.trace = 1 := by
  decide

/-- Claim C3 (amended): the Armadillo tarball fetch is skipped when its
destination file exists — `download_dependencies` then performs no network
operation at all — but the MOLE zip fetch has no skip check: `download_mole`
always performs exactly one network transfer, whether or not `mole.zip`
already exists. -/
theorem fetch_skip_on_presence :
    (∀ (env : Env) (temp_dir target_dir : FsPath) (st : St),
      pathExists st.fs (temp_dir ++ ["armadillo-12.6.6.tar.xz"]) = true →
      netCount (download_dependencies env temp_dir target_dir st).2.trace
        = netCount st.trace) ∧
    (∀ (env : Env) (target_dir : FsPath) (st : St),
      netCount (download_mole env target_dir st).2.trace
        = netCount st.trace + 1) := by
  constructor
  · intro env temp_dir target_dir st h
    simp only [download_dependencies]
    rw [if_pos h]
    simp only [pySeq_ok]
    by_cases hpkg : pathExists st.fs (target_dir ++ ["armadillo-12.6.6"]) = true
    · rw [if_pos hpkg]
      simp only [pySeq_ok]
      by_cases hbd : pathExists st.fs
          (target_dir ++ ["armadillo-12.6.6"] ++ ["build"]) = true
      · rw [if_pos hbd]
      · rw [if_neg hbd]
        rcases build_armadillo_trace env (target_dir ++ ["armadillo-12.6.6"]) st
          with ⟨l, hl, hn, -, -⟩
        rw [hl, netCount_append, hn]
        omega
    · rw [if_neg hpkg]
      rcases hte : tar_extractall env (temp_dir ++ ["armadillo-12.6.6.tar.xz"])
          target_dir st with ⟨r2, st2⟩
      have hnet2 : netCount st2.trace = netCount st.trace := by
        have := netCount_tar_extractall env
          (temp_dir ++ ["armadillo-12.6.6.tar.xz"]) target_dir st
        rw [hte] at this
        exact this
      cases r2 with
      | error e => simp only [pySeq_err]; exact hnet2
      | ok _ =>
        simp only [pySeq_ok]
        by_cases hbd : pathExists st2.fs
            (target_dir ++ ["armadillo-12.6.6"] ++ ["build"]) = true
        · rw [if_pos hbd]; exact hnet2
        · rw [if_neg hbd]
          rcases build_armadillo_trace env (target_dir ++ ["armadillo-12.6.6"]) st2
            with ⟨l, hl, hn, -, -⟩
          rw [hl, netCount_append, hn, hnet2]
          omega
  · intro env target_dir st
    simp only [download_mole]
    rcases hur : urlretrieve env MOLE_REPO (target_dir ++ ["mole.zip"]) st
      with ⟨r1, st1⟩
    have hnet1 : netCount st1.trace = netCount st.trace + 1 := by
      have := urlretrieve_trace env MOLE_REPO (target_dir ++ ["mole.zip"]) st
      rw [hur] at this
      rw [this, netCount_append, netCount_netE]
    cases r1 with
    | error e => simp only [pySeq_err]; exact hnet1
    | ok _ =>
      simp only [pySeq_ok]
      rcases hze : zip_extractall env (target_dir ++ ["mole.zip"]) target_dir st1
        with ⟨r2, st2⟩
      have hnet2 : netCount st2.trace = netCount st1.trace := by
        have := netCount_zip_extractall env (target_dir ++ ["mole.zip"])
          target_dir st1
        rw [hze] at this
        exact this
      cases r2 with
      | error e => simp only [pySeq_err]; rw [hnet2, hnet1]
      | ok _ => simp only [pySeq_ok]; rw [show (⟨removeFile st2.fs
          (target_dir ++ ["mole.zip"]), st2.trace⟩ : St).trace = st2.trace from rfl,
          hnet2, hnet1]

/-- Witness for the amended C3 at concrete inputs. -/
theorem fetch_skip_on_presence_witness :
    netCount (download_dependencies goodEnv ["t"] ["g"] tarSt).2.trace
      = netCount tarSt.trace ∧
    netCount (download_mole goodEnv ["t"] st0).2.trace = netCount st0.trace + 1 :=
  ⟨fetch_skip_on_presence.1 goodEnv ["t"] ["g"] tarSt (by decide),
   fetch_skip_on_presence.2 goodEnv ["t"] st0⟩

/-- Claim C4, counterexample: the expected output directory of the MOLE zip
extraction (`mole-main`) already exists inside the destination, yet the
extraction is still performed (one zip-extraction event, where the claim
requires the extraction to be skipped entirely). -/
theorem mole_extract_despite_existing_dir :
    pathExists molePresentSt.fs (["t"] ++ ["mole-main"]) = true ∧
    zipCount (download_mole goodEnv ["t"] molePresentSt).2.trace = 1 := by
  decide

/-- Claim C4 (amended): only the Armadillo tarball extraction checks its
idempotency marker — when `target_dir/armadillo-12.6.6` exists no tarball
extraction happens; when the marker is absent and the archive is readable the
full contents are unpacked into the destination.  The MOLE zip extraction is
unconditional: whenever the fetch succeeds and the archive is readable it
extracts, with no marker check at all. -/
theorem extract_skip_behavior :
    (∀ (env : Env) (temp_dir target_dir : FsPath) (st : St),
      pathExists st.fs (target_dir ++ ["armadillo-12.6.6"]) = true →
      tarCount (download_dependencies env temp_dir target_dir st).2.trace
        = tarCount st.trace) ∧
    (∀ (env : Env) (archive target : FsPath) (st : St) (c : String)
        (a : ArchiveData),
      fileContent st.fs archive = some c → env.tarArchive c = some a →
      tar_extractall env archive target st
        = (.ok (), ⟨extractInto st.fs target a,
            st.trace ++ [Ev.tarX archive target]⟩)) ∧
    (∀ (env : Env) (target_dir : FsPath) (st : St) (a : ArchiveData),
      env.fetchOK MOLE_REPO = true → env.zipArchive MOLE_REPO = some a →
      zipCount (download_mole env target_dir st).2.trace
        = zipCount st.trace + 1) := by
  refine ⟨?_, ?_, ?_⟩
  · intro env temp_dir target_dir st h
    simp only [download_dependencies]
    by_cases harch : pathExists st.fs (temp_dir ++ ["armadillo-12.6.6.tar.xz"])
        = true
    · rw [if_pos harch]
      simp only [pySeq_ok]
      rw [if_pos h]
      simp only [pySeq_ok]
      by_cases hbd : pathExists st.fs
          (target_dir ++ ["armadillo-12.6.6"] ++ ["build"]) = true
      · rw [if_pos hbd]
      · rw [if_neg hbd]
        rcases build_armadillo_trace env (target_dir ++ ["armadillo-12.6.6"]) st
          with ⟨l, hl, -, ht, -⟩
        rw [hl, tarCount_append, ht]
        omega
    · rw [if_neg harch]
      rcases hur : urlretrieve env ARMADILLO_SOURCE
          (temp_dir ++ ["armadillo-12.6.6.tar.xz"]) st with ⟨r1, st1⟩
      cases r1 with
      | error e =>
        simp only [pySeq_err]
        have ht1 := urlretrieve_trace env ARMADILLO_SOURCE
          (temp_dir ++ ["armadillo-12.6.6.tar.xz"]) st
        rw [hur] at ht1
        rw [show (Except.error e, st1).2.trace = st1.trace from rfl] at ht1
        rw [ht1, tarCount_append, tarCount_netE]
        omega
      | ok _ =>
        simp only [pySeq_ok]
        cases hf : env.fetchOK ARMADILLO_SOURCE with
        | false =>
          rw [urlretrieve_err hf] at hur
          simp at hur
        | true =>
          rw [urlretrieve_ok hf] at hur
          have hst1 : st1 = ⟨writeFile st.fs
              (temp_dir ++ ["armadillo-12.6.6.tar.xz"]) ARMADILLO_SOURCE,
              st.trace ++ [Ev.net ARMADILLO_SOURCE
                (temp_dir ++ ["armadillo-12.6.6.tar.xz"])]⟩ :=
            (congrArg Prod.snd hur).symm
          subst hst1
          rw [if_pos (by
            rw [pathExists_writeFile_ne _ _ _ _ (snoc_ne_of_ne (by decide) _ _)]
            exact h)]
          simp only [pySeq_ok]
          by_cases hbd : pathExists (writeFile st.fs
              (temp_dir ++ ["armadillo-12.6.6.tar.xz"]) ARMADILLO_SOURCE)
              (target_dir ++ ["armadillo-12.6.6"] ++ ["build"]) = true
          · rw [if_pos hbd]
            show tarCount (st.trace ++ [Ev.net ARMADILLO_SOURCE
              (temp_dir ++ ["armadillo-12.6.6.tar.xz"])]) = tarCount st.trace
            rw [tarCount_append, tarCount_netE]
            omega
          · rw [if_neg hbd]
            rcases build_armadillo_trace env (target_dir ++ ["armadillo-12.6.6"])
              ⟨writeFile st.fs (temp_dir ++ ["armadillo-12.6.6.tar.xz"])
                ARMADILLO_SOURCE,
               st.trace ++ [Ev.net ARMADILLO_SOURCE
                (temp_dir ++ ["armadillo-12.6.6.tar.xz"])]⟩
              with ⟨l, hl, -, ht, -⟩
            rw [hl]
            show tarCount ((st.trace ++ [Ev.net ARMADILLO_SOURCE
              (temp_dir ++ ["armadillo-12.6.6.tar.xz"])]) ++ l) = tarCount st.trace
            rw [tarCount_append, tarCount_append, tarCount_netE, ht]
            omega
  · intro env archive target st c a hc ha
    simp only [tar_extractall, hc, ha]
  · intro env target_dir st a hf hz
    simp only [download_mole]
    rw [urlretrieve_ok hf]
    simp only [pySeq_ok]
    have hfc : fileContent (writeFile st.fs (target_dir ++ ["mole.zip"])
        MOLE_REPO) (target_dir ++ ["mole.zip"]) = some MOLE_REPO :=
      fileContent_writeFile_self _ _ _
    simp only [zip_extractall, hfc, hz, pySeq_ok]
    show zipCount ((st.trace ++ [Ev.net MOLE_REPO (target_dir ++ ["mole.zip"])])
      ++ [Ev.zipX (target_dir ++ ["mole.zip"]) target_dir]) = zipCount st.trace + 1
    rw [zipCount_append, zipCount_append, zipCount_netE, zipCount_zipX]

/-- Witness for the amended C4 at concrete inputs. -/
theorem extract_skip_behavior_witness :
    tarCount (download_dependencies goodEnv ["t"] ["g2"] pkgSt).2.trace
      = tarCount pkgSt.trace ∧
    tar_extractall goodEnv ["t", "a"] ["g"] wtarSt
      = (.ok (), ⟨extractInto wtarSt.fs ["g"] armaData,
          wtarSt.trace ++ [Ev.tarX ["t", "a"] ["g"]]⟩) ∧
    zipCount (download_mole goodEnv ["t"] st0).2.trace = zipCount st0.trace + 1 :=
  ⟨extract_skip_behavior.1 goodEnv ["t"] ["g2"] pkgSt (by decide),
   extract_skip_behavior.2.1 goodEnv ["t", "a"] ["g"] wtarSt ARMADILLO_SOURCE
     armaData (by decide) (by decide),
   extract_skip_behavior.2.2 goodEnv ["t"] st0 moleData (by decide) (by decide)⟩

/-- When all three idempotency markers are present (archive file, extracted
tree, build directory) `download_dependencies` is the identity: it succeeds
without touching the state. -/
theorem dd_skip_all (env : Env) (temp_dir target_dir : FsPath) (st : St)
    (h1 : pathExists st.fs (temp_dir ++ ["armadillo-12.6.6.tar.xz"]) = true)
    (h2 : pathExists st.fs (target_dir ++ ["armadillo-12.6.6"]) = true)
    (h3 : pathExists st.fs (target_dir ++ ["armadillo-12.6.6"] ++ ["build"])
      = true) :
    download_dependencies env temp_dir target_dir st = (.ok true, st) := by
  simp only [download_dependencies]
  rw [if_pos h1]
  simp only [pySeq_ok]
  rw [if_pos h2]
  simp only [pySeq_ok]
  rw [if_pos h3]

/-- Claim C5: the native build is skipped exactly when the `build` marker
directory exists under the extracted tree; otherwise `build_armadillo` runs
the configure phase with exactly the three fixed options, then the compile
phase, synchronously, each required to exit 0. -/
theorem build_skip_and_fixed_options :
    (∀ (env : Env) (temp_dir target_dir : FsPath) (st : St),
      pathExists st.fs (temp_dir ++ ["armadillo-12.6.6.tar.xz"]) = true →
      pathExists st.fs (target_dir ++ ["armadillo-12.6.6"]) = true →
      pathExists st.fs (target_dir ++ ["armadillo-12.6.6"] ++ ["build"]) = true →
      download_dependencies env temp_dir target_dir st = (.ok true, st)) ∧
    (∀ (env : Env) (temp_dir target_dir : FsPath) (st : St),
      pathExists st.fs (temp_dir ++ ["armadillo-12.6.6.tar.xz"]) = true →
      pathExists st.fs (target_dir ++ ["armadillo-12.6.6"]) = true →
      pathExists st.fs (target_dir ++ ["armadillo-12.6.6"] ++ ["build"]) = false →
      download_dependencies env temp_dir target_dir st
        = build_armadillo env (target_dir ++ ["armadillo-12.6.6"]) st) ∧
    (∀ source_dir build_dir : FsPath,
      cmake_configure_cmd source_dir build_dir
        = ["cmake", "-S", pathStr source_dir, "-B", pathStr build_dir,
           "-DARMADILLO_USE_SUPERLU=ON", "-DARMADILLO_USE_OPENMP=ON",
           "-DCMAKE_POLICY_VERSION_MINIMUM=3.5"]) ∧
    (∀ (env : Env) (source_dir : FsPath) (st : St),
      env.exitCode (cmake_configure_cmd source_dir (source_dir ++ ["build"])) = 0 →
      env.exitCode (cmake_build_cmd (source_dir ++ ["build"])) = 0 →
      build_armadillo env source_dir st
        = (.ok true, ⟨makedirs st.fs (source_dir ++ ["build"]),
            st.trace
              ++ [Ev.proc (cmake_configure_cmd source_dir (source_dir ++ ["build"])),
                  Ev.proc (cmake_build_cmd (source_dir ++ ["build"]))]⟩)) := by
  refine ⟨dd_skip_all, ?_, fun _ _ => rfl, ?_⟩
  · intro env temp_dir target_dir st h1 h2 h3
    simp only [download_dependencies]
    rw [if_pos h1]
    simp only [pySeq_ok]
    rw [if_pos h2]
    simp only [pySeq_ok]
    rw [if_neg (by rw [h3]; exact Bool.false_ne_true)]
  · intro env source_dir st h0 hb
    simp only [build_armadillo]
    rw [check_call_ok h0]
    simp only [pySeq_ok]
    rw [check_call_ok hb]
    simp only [pySeq_ok]
    rw [List.append_assoc]
    rfl

/-- Witness for C5 at concrete inputs. -/
theorem build_skip_and_fixed_options_witness :
    download_dependencies goodEnv ["t3"] ["g3"] ddSkipSt = (.ok true, ddSkipSt) ∧
    download_dependencies goodEnv ["t3"] ["g3"] ddNoBuildSt
      = build_armadillo goodEnv (["g3"] ++ ["armadillo-12.6.6"]) ddNoBuildSt ∧
    cmake_configure_cmd ["s"] ["s", "build"]
      = ["cmake", "-S", pathStr ["s"], "-B", pathStr ["s", "build"],
         "-DARMADILLO_USE_SUPERLU=ON", "-DARMADILLO_USE_OPENMP=ON",
         "-DCMAKE_POLICY_VERSION_MINIMUM=3.5"] ∧
    build_armadillo goodEnv ["p"] st0
      = (.ok true, ⟨makedirs st0.fs (["p"] ++ ["build"]),
          st0.trace ++ [Ev.proc (cmake_configure_cmd ["p"] (["p"] ++ ["build"])),
            Ev.proc (cmake_build_cmd (["p"] ++ ["build"]))]⟩) :=
  ⟨build_skip_and_fixed_options.1 goodEnv ["t3"] ["g3"] ddSkipSt (by decide)
      (by decide) (by decide),
   build_skip_and_fixed_options.2.1 goodEnv ["t3"] ["g3"] ddNoBuildSt (by decide)
      (by decide) (by decide),
   build_skip_and_fixed_options.2.2.1 ["s"] ["s", "build"],
   build_skip_and_fixed_options.2.2.2 goodEnv ["p"] st0 (by decide) (by decide)⟩

/-- Claim C6: whenever a pipeline component fails, the remaining stages are
aborted (the body is a strict sequence, so the first error short-circuits),
workspace cleanup still runs, and the original error propagates unchanged to
the caller of `prepare_mole`; moreover a non-zero exit of the compile phase
surfaces as a `CalledProcessError` naming the compile command and its exit
code — not the configure command. -/
theorem error_propagation :
    (∀ (env : Env) (base_dir : FsPath) (st : St),
      isFile st.fs (base_dir ++ ["temp_build"]) = false →
      ∀ (e : PyErr) (st2 : St),
        pipeline_body env (base_dir ++ ["temp_build"])
            (base_dir ++ ["src", "pymole", "cpp"])
            ⟨addDir st.fs (base_dir ++ ["temp_build"]), st.trace⟩
          = (.error e, st2) →
        (prepare_mole env base_dir st).1 = .error e ∧
        pathExists (prepare_mole env base_dir st).2.fs
          (base_dir ++ ["temp_build"]) = false) ∧
    (∀ (env : Env) (source_dir : FsPath) (st : St) (k : Nat), k ≠ 0 →
      env.exitCode (cmake_configure_cmd source_dir (source_dir ++ ["build"])) = 0 →
      env.exitCode (cmake_build_cmd (source_dir ++ ["build"])) = k →
      (build_armadillo env source_dir st).1
        = .error (.calledProcessError
            (cmake_build_cmd (source_dir ++ ["build"])) k)) := by
  constructor
  · intro env base_dir st h e st2 hpb
    refine ⟨?_, prepare_mole_cleanup_core env base_dir st h⟩
    rw [prepare_mole_fst env base_dir st h, hpb]
  · intro env source_dir st k hk h0 hkk
    simp only [build_armadillo]
    rw [check_call_ok h0]
    simp only [pySeq_ok]
    rw [check_call_err hkk hk]
    simp only [pySeq_err]

/-- Witness for C6 at concrete inputs. -/
theorem error_propagation_witness :
    ((prepare_mole badEnv base0 st0).1
        = .error (.fetchError ARMADILLO_SOURCE
            ["b", "temp_build", "armadillo-12.6.6.tar.xz"]) ∧
      pathExists (prepare_mole badEnv base0 st0).2.fs
        (base0 ++ ["temp_build"]) = false) ∧
    (build_armadillo bfEnv ["p"] st0).1
      = .error (.calledProcessError (cmake_build_cmd (["p"] ++ ["build"])) 2) :=
  ⟨error_propagation.1 badEnv base0 st0 (by decide)
      (.fetchError ARMADILLO_SOURCE ["b", "temp_build", "armadillo-12.6.6.tar.xz"])
      (pipeline_body badEnv (base0 ++ ["temp_build"])
        (base0 ++ ["src", "pymole", "cpp"])
        ⟨addDir st0.fs (base0 ++ ["temp_build"]), st0.trace⟩).2
      (by decide),
   error_propagation.2 bfEnv ["p"] st0 2 (by decide) (by decide) (by decide)⟩

/-- Claim C10: `build_armadillo` creates the `build` marker directory with
`os.makedirs(exist_ok=True)` before either phase runs, so after a configure
or compile failure the marker still exists; and any later
`download_dependencies` invocation that reaches the build step with the
marker present skips the build entirely instead of retrying it. -/
theorem build_marker_persists :
    (∀ (env : Env) (source_dir : FsPath) (st : St) (k : Nat), k ≠ 0 →
      env.exitCode (cmake_configure_cmd source_dir (source_dir ++ ["build"])) = k →
      (build_armadillo env source_dir st).1
          = .error (.calledProcessError
              (cmake_configure_cmd source_dir (source_dir ++ ["build"])) k) ∧
        isDir (build_armadillo env source_dir st).2.fs
          (source_dir ++ ["build"]) = true) ∧
    (∀ (env : Env) (source_dir : FsPath) (st : St) (k : Nat), k ≠ 0 →
      env.exitCode (cmake_configure_cmd source_dir (source_dir ++ ["build"])) = 0 →
      env.exitCode (cmake_build_cmd (source_dir ++ ["build"])) = k →
      isDir (build_armadillo env source_dir st).2.fs
        (source_dir ++ ["build"]) = true) ∧
    (∀ (env : Env) (temp_dir target_dir : FsPath) (st : St),
      pathExists st.fs (temp_dir ++ ["armadillo-12.6.6.tar.xz"]) = true →
      pathExists st.fs (target_dir ++ ["armadillo-12.6.6"]) = true →
      pathExists st.fs (target_dir ++ ["armadillo-12.6.6"] ++ ["build"]) = true →
      download_dependencies env temp_dir target_dir st = (.ok true, st)) := by
  refine ⟨?_, ?_, dd_skip_all⟩
  · intro env source_dir st k hk hcfg
    simp only [build_armadillo]
    rw [check_call_err hcfg hk]
    simp only [pySeq_err]
    exact ⟨by trivial, isDir_makedirs_self _ _ (by simp)⟩
  · intro env source_dir st k hk h0 hkk
    simp only [build_armadillo]
    rw [check_call_ok h0]
    simp only [pySeq_ok]
    rw [check_call_err hkk hk]
    simp only [pySeq_err]
    exact isDir_makedirs_self _ _ (by simp)

/-- Witness for C10 at concrete inputs. -/
theorem build_marker_persists_witness :
    ((build_armadillo cfEnv ["p"] st0).1
        = .error (.calledProcessError
            (cmake_configure_cmd ["p"] (["p"] ++ ["build"])) 3) ∧
      isDir (build_armadillo cfEnv ["p"] st0).2.fs (["p"] ++ ["build"]) = true) ∧
    isDir (build_armadillo bfEnv ["p"] st0).2.fs (["p"] ++ ["build"]) = true ∧
    download_dependencies goodEnv ["t3"] ["g3"] ddSkipSt = (.ok true, ddSkipSt) :=
  ⟨build_marker_persists.1 cfEnv ["p"] st0 3 (by decide) (by decide),
   build_marker_persists.2.1 bfEnv ["p"] st0 2 (by decide) (by decide) (by decide),
   build_marker_persists.2.2 goodEnv ["t3"] ["g3"] ddSkipSt (by decide) (by decide)
     (by decide)⟩

/-- Claim C2, counterexample: after a first successful run both idempotency
markers (extracted tree, build directory) exist, yet the second run performs
two network operations, not zero: the cached tarball lived inside the scratch
workspace that the first run deleted, and the MOLE fetch is unconditional. -/
theorem second_run_network_ops :
    isDir st1.fs pkgP = true ∧ isDir st1.fs (pkgP ++ ["build"]) = true ∧
    netCount run2.2.trace = 2 ∧ netCount run2.2.trace ≠ 0 := by
  decide

/-- Claim C2 (amended): with both idempotency markers present from the first
run, the second run performs zero build-toolchain invocations and zero
tarball extractions and still completes successfully; but it performs two
network operations (tarball re-fetch plus the unconditional MOLE fetch)
because the downloaded archives do not survive workspace cleanup. -/
theorem second_run_behavior :
    run1.1 = .ok () ∧ run2.1 = .ok () ∧
    procCount run2.2.trace = 0 ∧ tarCount run2.2.trace = 0 ∧
    netCount run2.2.trace = 2 := by
  decide

/-- Claim C9, counterexample: after a successful pipeline run the extracted
Armadillo tree and its build output still exist on disk — they were created
under the staging area `target_dir/cpp`, not under the scratch workspace —
contradicting the claim that every entity except the staging target is gone
when the invocation ends. -/
theorem artifacts_persist_after_run :
    run1.1 = .ok () ∧ isDir st1.fs pkgP = true ∧
    isDir st1.fs (pkgP ++ ["build"]) = true := by
  decide

/-- Claim C9 (amended): after a successful run the scratch workspace and
everything inside it (the downloaded tarball, the MOLE zip, the fetched MOLE
tree) are gone and the staged sources persist at the staging target; but the
extracted Armadillo tree and its build output also persist, under
`target_dir/cpp`, outside the scratch workspace. -/
theorem run_artifact_lifecycle :
    run1.1 = .ok () ∧
    pathExists st1.fs tempP = false ∧
    pathExists st1.fs (tempP ++ ["armadillo-12.6.6.tar.xz"]) = false ∧
    pathExists st1.fs (tempP ++ ["mole.zip"]) = false ∧
    pathExists st1.fs (tempP ++ ["mole-main"]) = false ∧
    fileContent st1.fs (stageP ++ ["mole.cpp"]) = some "molecpp" ∧
    fileContent st1.fs (stageP ++ ["mole.h"]) = some "moleh" ∧
    fileContent st1.fs (stageP ++ ["utils", "u.cpp"]) = some "utilcpp" ∧
    isDir st1.fs pkgP = true ∧
    isDir st1.fs (pkgP ++ ["build"]) = true := by
  decide

/-- Claim C8, counterexample: the first staging succeeds and moves the
children away, yet the source subpath `s/mole-main/src/cpp` itself still
exists (empty) afterwards, so the second invocation lists nothing and
returns successfully instead of failing with a missing-source error. -/
theorem restaging_succeeds :
    stageOnce.1 = .ok () ∧
    pathExists stageOnce.2.fs (["s"] ++ [MOLE_DIR, "src", "cpp"]) = true ∧
    pathExists stageOnce.2.fs
      (["s"] ++ [MOLE_DIR, "src", "cpp"] ++ ["a.cpp"]) = false ∧
    stageTwice.1 = .ok () := by
  decide

theorem pathExists_addDir_self (fs : FS) (p : FsPath) :
    pathExists (addDir fs p) p = true := by
  simp [pathExists, isDir_addDir_self]

theorem pathExists_addDir_ne (fs : FS) (p q : FsPath) (h : q ≠ p) :
    pathExists (addDir fs p) q = pathExists fs q := by
  unfold addDir
  split
  · rfl
  · simp only [pathExists, isDir, isFile]
    congr 1
    rw [decide_eq_decide]
    simp [List.mem_append, h]

theorem childNames_addDir (fs : FS) (p q : FsPath) (h : leads q p = false) :
    childNames (addDir fs p) q = childNames fs q := by
  unfold addDir
  split
  · rfl
  · unfold childNames
    congr 1
    show ((fs.dirs ++ [p]) ++ fs.files.map Prod.fst).filterMap _
      = (fs.dirs ++ fs.files.map Prod.fst).filterMap _
    rw [List.filterMap_append, List.filterMap_append, List.filterMap_append]
    have hp : [p].filterMap (fun r =>
        if r.length == q.length + 1 && leads q r then r.getLast? else none)
        = [] := by
      simp [h]
    rw [hp]
    simp

/-- Claim C8 (amended): a second invocation of the Source Stager after a
prior one succeeds vacuously — the prior staging moved only the children of
the source subpath, so the subpath itself still exists, the listing is empty
and the loop does nothing.  The stager raises the missing-source error
(`FileNotFoundError` from `os.listdir`; `StageError` in the spec taxonomy)
precisely when the source subpath itself is gone, as it is after the
workspace holding it has been cleaned up. -/
theorem restaging_behavior :
    (∀ (source_dir target_dir : FsPath) (st : St),
      leads (source_dir ++ [MOLE_DIR, "src", "cpp"]) (target_dir ++ ["cpp"])
        = false →
      isFile st.fs (target_dir ++ ["cpp"]) = false →
      pathExists st.fs (source_dir ++ [MOLE_DIR, "src", "cpp"]) = false →
      (copy_mole_sources source_dir target_dir st).1
        = .error (.fileNotFound (source_dir ++ [MOLE_DIR, "src", "cpp"]))) ∧
    (∀ (source_dir target_dir : FsPath) (st : St),
      leads (source_dir ++ [MOLE_DIR, "src", "cpp"]) (target_dir ++ ["cpp"])
        = false →
      isFile st.fs (target_dir ++ ["cpp"]) = false →
      pathExists st.fs (source_dir ++ [MOLE_DIR, "src", "cpp"]) = true →
      childNames st.fs (source_dir ++ [MOLE_DIR, "src", "cpp"]) = [] →
      copy_mole_sources source_dir target_dir st
        = (.ok (), ⟨addDir st.fs (target_dir ++ ["cpp"]), st.trace⟩)) := by
  have hne : ∀ (source_dir target_dir : FsPath),
      leads (source_dir ++ [MOLE_DIR, "src", "cpp"]) (target_dir ++ ["cpp"])
        = false →
      (source_dir ++ [MOLE_DIR, "src", "cpp"]) ≠ (target_dir ++ ["cpp"]) := by
    intro source_dir target_dir hl he
    rw [he, leads_refl] at hl
    cases hl
  constructor
  · intro source_dir target_dir st hl hf hmiss
    have hm : mkdir_exist_ok st.fs (target_dir ++ ["cpp"])
        = .ok (addDir st.fs (target_dir ++ ["cpp"])) := by
      unfold mkdir_exist_ok
      rw [hf]
      rfl
    simp only [copy_mole_sources]
    rw [hm]
    simp only
    rw [if_pos (pathExists_addDir_self st.fs (target_dir ++ ["cpp"]))]
    rw [if_neg (by
      rw [pathExists_addDir_ne st.fs (target_dir ++ ["cpp"])
        (source_dir ++ [MOLE_DIR, "src", "cpp"]) (hne _ _ hl), hmiss]
      exact Bool.false_ne_true)]
  · intro source_dir target_dir st hl hf hsrc hchild
    have hm : mkdir_exist_ok st.fs (target_dir ++ ["cpp"])
        = .ok (addDir st.fs (target_dir ++ ["cpp"])) := by
      unfold mkdir_exist_ok
      rw [hf]
      rfl
    simp only [copy_mole_sources]
    rw [hm]
    simp only
    rw [if_pos (pathExists_addDir_self st.fs (target_dir ++ ["cpp"]))]
    rw [if_pos (by
      rw [pathExists_addDir_ne st.fs (target_dir ++ ["cpp"])
        (source_dir ++ [MOLE_DIR, "src", "cpp"]) (hne _ _ hl)]
      exact hsrc)]
    rw [childNames_addDir st.fs (target_dir ++ ["cpp"])
      (source_dir ++ [MOLE_DIR, "src", "cpp"]) hl, hchild]
    rfl

/-- Witness for the amended C8 at concrete inputs. -/
theorem restaging_behavior_witness :
    (copy_mole_sources ["s"] ["d"] st0).1
      = .error (.fileNotFound (["s"] ++ [MOLE_DIR, "src", "cpp"])) ∧
    copy_mole_sources ["s"] ["d"] stageOnce.2
      = (.ok (), ⟨addDir stageOnce.2.fs (["d"] ++ ["cpp"]), stageOnce.2.trace⟩) :=
  ⟨restaging_behavior.1 ["s"] ["d"] st0 (by decide) (by decide) (by decide),
   restaging_behavior.2 ["s"] ["d"] stageOnce.2 (by decide) (by decide)
     (by decide) (by decide)⟩

theorem pathExists_iff_mem {fs : FS} {p : FsPath} :
    pathExists fs p = true ↔ p ∈ fs.dirs ∨ p ∈ fs.files.map Prod.fst := by
  simp [pathExists, isDir, isFile]

theorem noEntriesUnder_spec {fs : FS} {d : FsPath}
    (h : noEntriesUnder fs d = true) : FreshUnder fs d := by
  intro p hp
  cases hx : pathExists fs p with
  | false => rfl
  | true =>
    exfalso
    have hmem : p ∈ fs.dirs ++ fs.files.map Prod.fst := by
      rcases pathExists_iff_mem.mp hx with h1 | h1
      · exact List.mem_append_left _ h1
      · exact List.mem_append_right _ h1
    have := (List.all_eq_true.mp h) p hmem
    rw [hp] at this
    cases this

theorem isFile_eq_isSome (fs : FS) (p : FsPath) :
    isFile fs p = (fileContent fs p).isSome := by
  unfold fileContent
  cases h : fs.files.find? (fun e => decide (e.1 = p)) with
  | none =>
    have hn := List.find?_eq_none.mp h
    simp only [Option.map_none', Option.isSome_none, isFile]
    rw [decide_eq_false_iff_not]
    intro hc
    rcases List.mem_map.mp hc with ⟨e, he, rfl⟩
    exact hn e he (by simp)
  | some e =>
    have hm := List.mem_of_find?_eq_some h
    have hp := List.find?_some h
    rw [decide_eq_true_eq] at hp
    simp only [Option.map_some', Option.isSome_some, isFile]
    rw [decide_eq_true_iff]
    exact List.mem_map.mpr ⟨e, hm, hp⟩

theorem leads_disjoint_right {a b : FsPath} (hab : leads a b = false)
    (hba : leads b a = false) (v : FsPath) : leads a (b ++ v) = false := by
  have := leads_disjoint hab hba [] v
  rwa [List.append_nil] at this

/-- The key of a renamed file entry. -/
theorem fst_rename_pair (s d : FsPath) (e : FsPath × String) :
    (if leads s e.1 then (d ++ e.1.drop s.length, e.2) else e).1
      = if leads s e.1 then d ++ e.1.drop s.length else e.1 := by
  split <;> rfl

/-- `find?` over a filtered list agrees with `find?` when the filter keeps
every entry the search predicate accepts. -/
theorem find?_filter_eq {A : Type} (l : List A) (pred keep : A → Bool)
    (h : ∀ e ∈ l, pred e = true → keep e = true) :
    (l.filter keep).find? pred = l.find? pred := by
  induction l with
  | nil => rfl
  | cons a t ih =>
    by_cases hp : pred a = true
    · rw [List.filter_cons_of_pos (h a (List.mem_cons_self a t) hp),
        List.find?_cons_of_pos _ hp, List.find?_cons_of_pos _ hp]
    · have ih' := ih fun e he hpe => h e (List.mem_cons_of_mem a he) hpe
      by_cases hk : keep a = true
      · rw [List.filter_cons_of_pos hk, List.find?_cons_of_neg _ hp,
          List.find?_cons_of_neg _ hp, ih']
      · rw [List.filter_cons_of_neg (by simpa using hk),
          List.find?_cons_of_neg _ hp, ih']

/-- Key-remapped `find?`: when `g` preserves values and maps keys so that a
mapped entry has key `p` exactly when the original had key `p0`, the value
found at `p` in the mapped list is the value found at `p0` originally. -/
theorem find?_map_snd {l : List (FsPath × String)}
    {g : FsPath × String → FsPath × String} {p p0 : FsPath}
    (hg : ∀ e ∈ l, (g e).1 = p ↔ e.1 = p0)
    (hsnd : ∀ e, (g e).2 = e.2) :
    ((l.map g).find? (fun e => decide (e.1 = p))).map Prod.snd
      = (l.find? (fun e => decide (e.1 = p0))).map Prod.snd := by
  induction l with
  | nil => rfl
  | cons a t ih =>
    rw [List.map_cons]
    by_cases h1 : (g a).1 = p
    · have h2 : a.1 = p0 := (hg a (List.mem_cons_self a t)).mp h1
      rw [List.find?_cons_of_pos _ (by simpa using h1),
        List.find?_cons_of_pos _ (by simpa using h2)]
      simp [hsnd a]
    · have h2 : ¬ a.1 = p0 := fun hc => h1 ((hg a (List.mem_cons_self a t)).mpr hc)
      rw [List.find?_cons_of_neg _ (by simpa using h1),
        List.find?_cons_of_neg _ (by simpa using h2)]
      exact ih fun e he => hg e (List.mem_cons_of_mem a he)

/-- The value of a renamed file entry. -/
theorem snd_rename_pair (s d : FsPath) (e : FsPath × String) :
    (if leads s e.1 then (d ++ e.1.drop s.length, e.2) else e).2 = e.2 := by
  split <;> rfl

theorem isDir_renameTree_iff {fs : FS} {s d p : FsPath} :
    isDir (renameTree fs s d) p = true ↔
      ∃ x ∈ fs.dirs, (if leads s x then d ++ x.drop s.length else x) = p := by
  simp only [renameTree, isDir, decide_eq_true_iff, List.mem_map]

theorem filekey_renameTree {fs : FS} {s d p : FsPath} :
    p ∈ (renameTree fs s d).files.map Prod.fst ↔
      ∃ x ∈ fs.files.map Prod.fst,
        (if leads s x then d ++ x.drop s.length else x) = p := by
  constructor
  · intro h
    rcases List.mem_map.mp h with ⟨e1, he1, hfe⟩
    rcases List.mem_map.mp he1 with ⟨e, he, rfl⟩
    refine ⟨e.1, List.mem_map.mpr ⟨e, he, rfl⟩, ?_⟩
    rw [← fst_rename_pair s d e]
    exact hfe
  · rintro ⟨x, hx, hgx⟩
    rcases List.mem_map.mp hx with ⟨e, he, rfl⟩
    refine List.mem_map.mpr ⟨(if leads s e.1 then
      (d ++ e.1.drop s.length, e.2) else e), List.mem_map.mpr ⟨e, he, rfl⟩, ?_⟩
    rw [fst_rename_pair s d e]
    exact hgx

/-- Transport through a subtree rename: with `s` and `d` incomparable and the
destination fresh, the entries under `d` after the rename are exactly the
entries that were under `s`, with identical file contents. -/
theorem renameTree_transport {fs : FS} {s d : FsPath}
    (hfresh : FreshUnder fs d) (q : FsPath) :
    isDir (renameTree fs s d) (d ++ q) = isDir fs (s ++ q)
    ∧ fileContent (renameTree fs s d) (d ++ q) = fileContent fs (s ++ q) := by
  have hkey : ∀ x : FsPath, (x ∈ fs.dirs ∨ x ∈ fs.files.map Prod.fst) →
      ((if leads s x then d ++ x.drop s.length else x) = d ++ q ↔ x = s ++ q) := by
    intro x hx
    by_cases hle : leads s x = true
    · rcases leads_iff.mp hle with ⟨r, rfl⟩
      rw [if_pos hle, List.drop_left]
      constructor
      · intro h
        rw [List.append_cancel_left h]
      · intro h
        rw [List.append_cancel_left h]
    · rw [if_neg hle]
      constructor
      · rintro rfl
        have h1 := hfresh (d ++ q) (leads_append_right d q)
        have h2 : pathExists fs (d ++ q) = true := pathExists_iff_mem.mpr hx
        rw [h1] at h2
        cases h2
      · rintro rfl
        exact absurd (leads_append_right s q) hle
  constructor
  · rw [Bool.eq_iff_iff, isDir_renameTree_iff]
    simp only [isDir, decide_eq_true_iff]
    constructor
    · rintro ⟨x, hx, hgx⟩
      have hx' := (hkey x (Or.inl hx)).mp hgx
      exact hx' ▸ hx
    · intro hx
      exact ⟨s ++ q, hx, (hkey (s ++ q) (Or.inl hx)).mpr rfl⟩
  · show ((fs.files.map _).find? _).map Prod.snd = _
    refine find?_map_snd (fun e he => ?_) (fun e => snd_rename_pair s d e)
    rw [fst_rename_pair s d e]
    exact hkey e.1 (Or.inr (List.mem_map.mpr ⟨e, he, rfl⟩))

/-- After a subtree rename with incomparable roots, nothing remains at or
under the source. -/
theorem renameTree_clears {fs : FS} {s d : FsPath}
    (hsd : leads s d = false) (hds : leads d s = false) (q : FsPath) :
    pathExists (renameTree fs s d) (s ++ q) = false := by
  cases hx : pathExists (renameTree fs s d) (s ++ q) with
  | false => rfl
  | true =>
    exfalso
    have hkey : ∀ x : FsPath,
        (if leads s x then d ++ x.drop s.length else x) = s ++ q → False := by
      intro x hgx
      by_cases hle : leads s x = true
      · rw [if_pos hle] at hgx
        have hld : leads d (s ++ q) = true := by
          rw [← hgx]
          exact leads_append_right d _
        rw [leads_disjoint_right hds hsd q] at hld
        cases hld
      · rw [if_neg hle] at hgx
        exact hle (hgx ▸ leads_append_right s q)
    rcases pathExists_iff_mem.mp hx with hmem | hmem
    · rcases isDir_renameTree_iff.mp (by simpa [isDir] using hmem)
        with ⟨x, -, hgx⟩
      exact hkey x hgx
    · rcases filekey_renameTree.mp hmem with ⟨x, -, hgx⟩
      exact hkey x hgx

/-- Frame rule for a subtree rename: paths under neither root are untouched. -/
theorem renameTree_frame {fs : FS} {s d : FsPath} {p : FsPath}
    (hs : leads s p = false) (hd : leads d p = false) :
    isDir (renameTree fs s d) p = isDir fs p
    ∧ fileContent (renameTree fs s d) p = fileContent fs p := by
  have hkey : ∀ x : FsPath,
      ((if leads s x then d ++ x.drop s.length else x) = p ↔ x = p) := by
    intro x
    by_cases hle : leads s x = true
    · rw [if_pos hle]
      constructor
      · rintro rfl
        have := leads_append_right d (x.drop s.length)
        rw [hd] at this
        cases this
      · rintro rfl
        rw [hle] at hs
        cases hs
    · rw [if_neg hle]
  constructor
  · rw [Bool.eq_iff_iff, isDir_renameTree_iff]
    simp only [isDir, decide_eq_true_iff]
    constructor
    · rintro ⟨x, hx, hgx⟩
      exact (hkey x).mp hgx ▸ hx
    · intro hx
      exact ⟨p, hx, (hkey p).mpr rfl⟩
  · show ((fs.files.map _).find? _).map Prod.snd = _
    refine find?_map_snd (fun e he => ?_) (fun e => snd_rename_pair s d e)
    rw [fst_rename_pair s d e]
    exact hkey e.1

/-- `shutil.rmtree` is the identity when nothing is at or under the target. -/
theorem removeTree_fresh {fs : FS} {d : FsPath} (h : FreshUnder fs d) :
    removeTree fs d = fs := by
  unfold removeTree
  have hd : (fs.dirs.filter fun q => !(leads d q)) = fs.dirs := by
    rw [List.filter_eq_self]
    intro x hx
    cases hl : leads d x with
    | false => rfl
    | true =>
      have h1 := h x hl
      have h2 : pathExists fs x = true := pathExists_iff_mem.mpr (Or.inl hx)
      rw [h1] at h2
      cases h2
  have hf : (fs.files.filter fun e => !(leads d e.1)) = fs.files := by
    rw [List.filter_eq_self]
    intro e he
    cases hl : leads d e.1 with
    | false => rfl
    | true =>
      have h1 := h e.1 hl
      have h2 : pathExists fs e.1 = true :=
        pathExists_iff_mem.mpr (Or.inr (List.mem_map.mpr ⟨e, he, rfl⟩))
      rw [h1] at h2
      cases h2
  rw [hd, hf]

/-- `shutil.move` into a fresh destination is a plain subtree rename. -/
theorem move_fresh {fs : FS} {s d : FsPath} (h : FreshUnder fs d) :
    move fs s d = renameTree fs s d := by
  unfold move
  rw [if_neg (by
    intro hc
    have h2 : pathExists fs d = true := by
      rw [pathExists, hc]
      rfl
    have h3 := h d (leads_refl d)
    rw [h2] at h3
    cases h3), removeTree_fresh h]

/-- Frame rule for `shutil.move`: paths under neither root are untouched,
whichever branch the move takes. -/
theorem move_frame {fs : FS} {s d p : FsPath}
    (hs : leads s p = false) (hd : leads d p = false) :
    isDir (move fs s d) p = isDir fs p
    ∧ fileContent (move fs s d) p = fileContent fs p := by
  unfold move
  split
  · have hd2 : leads (d ++ [s.getLastD ""]) p = false := by
      cases hld : leads (d ++ [s.getLastD ""]) p with
      | false => rfl
      | true =>
        have := leads_trans (leads_append_right d [s.getLastD ""]) hld
        rw [hd] at this
        cases this
    exact renameTree_frame hs hd2
  · have h1 := @renameTree_frame (removeTree fs d) s d p hs hd
    have h2 : isDir (removeTree fs d) p = isDir fs p := by
      simp only [removeTree, isDir]
      rw [decide_eq_decide, List.mem_filter]
      constructor
      · rintro ⟨h3, -⟩
        exact h3
      · intro h3
        exact ⟨h3, by rw [hd]; rfl⟩
    have h3 : fileContent (removeTree fs d) p = fileContent fs p := by
      unfold fileContent removeTree
      rw [find?_filter_eq]
      intro e _ hpe
      rw [decide_eq_true_eq] at hpe
      rw [hpe, hd]
      rfl
    exact ⟨h1.1.trans h2, h1.2.trans h3⟩

/-- An entry present after a rename was either present before or lies under
the destination root. -/
theorem pathExists_renameTree_cases {fs : FS} {s d p : FsPath}
    (h : pathExists (renameTree fs s d) p = true) :
    pathExists fs p = true ∨ leads d p = true := by
  have hkey : ∀ x : FsPath, (x ∈ fs.dirs ∨ x ∈ fs.files.map Prod.fst) →
      (if leads s x then d ++ x.drop s.length else x) = p →
      pathExists fs p = true ∨ leads d p = true := by
    intro x hx hgx
    by_cases hle : leads s x = true
    · rw [if_pos hle] at hgx
      right
      rw [← hgx]
      exact leads_append_right d _
    · rw [if_neg hle] at hgx
      left
      exact pathExists_iff_mem.mpr (hgx ▸ hx)
  rcases pathExists_iff_mem.mp h with hmem | hmem
  · rcases isDir_renameTree_iff.mp (by simpa [isDir] using hmem) with ⟨x, hx, hgx⟩
    exact hkey x (Or.inl hx) hgx
  · rcases filekey_renameTree.mp hmem with ⟨x, hx, hgx⟩
    exact hkey x (Or.inr hx) hgx

/-- Moving one subtree cannot create entries under an unrelated fresh root. -/
theorem move_preserves_fresh {fs : FS} {s d d' : FsPath}
    (hfs : FreshUnder fs d') (hdd : leads d d' = false)
    (hd'd : leads d' d = false) :
    FreshUnder (move fs s d) d' := by
  intro p hp
  cases hx : pathExists (move fs s d) p with
  | false => rfl
  | true =>
    exfalso
    unfold move at hx
    by_cases hdir : isDir fs d = true
    · rw [if_pos hdir] at hx
      rcases pathExists_renameTree_cases hx with h1 | h1
      · rw [hfs p hp] at h1
        cases h1
      · have hld : leads d p = true := leads_trans (leads_append_right d _) h1
        rcases leads_total hld hp with hc | hc
        · rw [hdd] at hc
          cases hc
        · rw [hd'd] at hc
          cases hc
    · rw [if_neg hdir] at hx
      rcases pathExists_renameTree_cases hx with h1 | h1
      · have h2 : pathExists fs p = true := by
          rcases pathExists_iff_mem.mp h1 with hm | hm
          · exact pathExists_iff_mem.mpr (Or.inl (List.mem_of_mem_filter hm))
          · rcases List.mem_map.mp hm with ⟨e, he, rfl⟩
            exact pathExists_iff_mem.mpr
              (Or.inr (List.mem_map.mpr ⟨e, List.mem_of_mem_filter he, rfl⟩))
        rw [hfs p hp] at h2
        cases h2
      · rcases leads_total h1 hp with hc | hc
        · rw [hdd] at hc
          cases hc
        · rw [hd'd] at hc
          cases hc

/-- Frame rule for the staging loop: a path under none of the per-child
source or destination roots is untouched by the whole loop. -/
theorem move_items_frame (src dst : FsPath) :
    ∀ (C : List String) (fs : FS) (p : FsPath),
      (∀ n ∈ C, leads (src ++ [n]) p = false ∧ leads (dst ++ [n]) p = false) →
      isDir (move_items fs src dst C) p = isDir fs p
      ∧ fileContent (move_items fs src dst C) p = fileContent fs p := by
  intro C
  induction C with
  | nil => exact fun fs p _ => ⟨rfl, rfl⟩
  | cons c rest ih =>
    intro fs p h
    have hc := h c (List.mem_cons_self c rest)
    have h1 := @move_frame fs (src ++ [c]) (dst ++ [c]) p hc.1 hc.2
    have h2 := ih (move fs (src ++ [c]) (dst ++ [c])) p
      (fun n hn => h n (List.mem_cons_of_mem c hn))
    exact ⟨h2.1.trans h1.1, h2.2.trans h1.2⟩

/-- Presence agrees wherever directory status and file content agree. -/
theorem pathExists_of_eq {fs1 fs2 : FS} {p : FsPath}
    (h1 : isDir fs1 p = isDir fs2 p)
    (h2 : fileContent fs1 p = fileContent fs2 p) :
    pathExists fs1 p = pathExists fs2 p := by
  rw [pathExists, pathExists, isFile_eq_isSome, isFile_eq_isSome, h1, h2]

/-- Specification of the staging loop: with the per-child destinations fresh
and the source and destination roots incomparable, each listed child subtree
is relocated wholesale — every path under `dst/n` afterwards carries exactly
what `src/n` carried before, with identical file contents, and nothing
remains under `src/n`. -/
theorem move_items_spec (src dst : FsPath)
    (hsd : leads src dst = false) (hds : leads dst src = false) :
    ∀ (C : List String) (fs : FS), C.Nodup →
      (∀ n ∈ C, FreshUnder fs (dst ++ [n])) →
      ∀ n ∈ C, ∀ q : FsPath,
        isDir (move_items fs src dst C) ((dst ++ [n]) ++ q)
            = isDir fs ((src ++ [n]) ++ q)
        ∧ fileContent (move_items fs src dst C) ((dst ++ [n]) ++ q)
            = fileContent fs ((src ++ [n]) ++ q)
        ∧ pathExists (move_items fs src dst C) ((src ++ [n]) ++ q) = false := by
  intro C
  induction C with
  | nil => intro fs _ _ n hn; exact absurd hn (List.not_mem_nil n)
  | cons c rest ih =>
    intro fs hnd hfr n hn q
    have hfc : FreshUnder fs (dst ++ [c]) := hfr c (List.mem_cons_self c rest)
    have hmv : move fs (src ++ [c]) (dst ++ [c])
        = renameTree fs (src ++ [c]) (dst ++ [c]) := move_fresh hfc
    have hnd' : rest.Nodup := (List.nodup_cons.mp hnd).2
    have hcnot : c ∉ rest := (List.nodup_cons.mp hnd).1
    rcases List.mem_cons.mp hn with rfl | hn'
    · -- the head child: moved now, untouched by the remaining moves
      have htr := @renameTree_transport fs (src ++ [n]) (dst ++ [n]) hfc q
      have hcl := @renameTree_clears fs (src ++ [n]) (dst ++ [n])
        (leads_disjoint hsd hds [n] [n]) (leads_disjoint hds hsd [n] [n]) q
      have hframeD := move_items_frame src dst rest
        (renameTree fs (src ++ [n]) (dst ++ [n])) ((dst ++ [n]) ++ q)
        (by
          intro m hm
          have hmn : m ≠ n := fun hh => hcnot (hh ▸ hm)
          constructor
          · rw [List.append_assoc]
            exact leads_disjoint hsd hds [m] ([n] ++ q)
          · rw [List.append_assoc]
            exact leads_sibling hmn [] q)
      have hframeS := move_items_frame src dst rest
        (renameTree fs (src ++ [n]) (dst ++ [n])) ((src ++ [n]) ++ q)
        (by
          intro m hm
          have hmn : m ≠ n := fun hh => hcnot (hh ▸ hm)
          constructor
          · rw [List.append_assoc]
            exact leads_sibling hmn [] q
          · rw [List.append_assoc]
            exact leads_disjoint hds hsd [m] ([n] ++ q))
      show isDir (move_items (move fs (src ++ [n]) (dst ++ [n])) src dst rest)
            ((dst ++ [n]) ++ q) = _
        ∧ fileContent (move_items (move fs (src ++ [n]) (dst ++ [n])) src dst rest)
            ((dst ++ [n]) ++ q) = _
        ∧ pathExists (move_items (move fs (src ++ [n]) (dst ++ [n])) src dst rest)
            ((src ++ [n]) ++ q) = false
      rw [hmv]
      exact ⟨hframeD.1.trans htr.1, hframeD.2.trans htr.2,
        (pathExists_of_eq hframeS.1 hframeS.2).trans hcl⟩
    · -- a later child: the head move leaves both its source and its fresh
      -- destination untouched, and the induction hypothesis applies
      have hnc : n ≠ c := fun hh => hcnot (hh ▸ hn')
      have hfr' : ∀ m ∈ rest,
          FreshUnder (move fs (src ++ [c]) (dst ++ [c])) (dst ++ [m]) := by
        intro m hm
        have hmc : m ≠ c := fun hh => hcnot (hh ▸ hm)
        exact move_preserves_fresh (hfr m (List.mem_cons_of_mem c hm))
          (leads_sibling hmc.symm [] []) (leads_sibling hmc [] [])
      have hrec := ih (move fs (src ++ [c]) (dst ++ [c])) hnd' hfr' n hn' q
      rw [hmv] at hrec
      have hfr1 := @renameTree_frame fs (src ++ [c]) (dst ++ [c])
        ((src ++ [n]) ++ q)
        (by
          rw [List.append_assoc]
          exact leads_sibling (fun hh => hnc hh.symm) [] q)
        (by
          rw [List.append_assoc]
          exact leads_disjoint hds hsd [c] ([n] ++ q))
      show isDir (move_items (move fs (src ++ [c]) (dst ++ [c])) src dst rest)
            ((dst ++ [n]) ++ q) = _
        ∧ fileContent (move_items (move fs (src ++ [c]) (dst ++ [c])) src dst rest)
            ((dst ++ [n]) ++ q) = _
        ∧ pathExists (move_items (move fs (src ++ [c]) (dst ++ [c])) src dst rest)
            ((src ++ [n]) ++ q) = false
      rw [hmv]
      exact ⟨hrec.1.trans hfr1.1, hrec.2.1.trans hfr1.2, hrec.2.2⟩

theorem isDir_addDir_ne (fs : FS) (p q : FsPath) (h : q ≠ p) :
    isDir (addDir fs p) q = isDir fs q := by
  unfold addDir
  split
  · rfl
  · simp only [isDir]
    rw [decide_eq_decide]
    simp [List.mem_append, h]

theorem fileContent_addDir (fs : FS) (p q : FsPath) :
    fileContent (addDir fs p) q = fileContent fs q := by
  unfold addDir
  split <;> rfl

theorem FreshUnder_addDir {fs : FS} {d x : FsPath} (h : FreshUnder fs d)
    (hx : leads d x = false) : FreshUnder (addDir fs x) d := by
  intro p hp
  by_cases hq : p = x
  · subst hq
    rw [hp] at hx
    cases hx
  · rw [pathExists_addDir_ne fs x p hq]
    exact h p hp

/-- Claim C7 (amended): when no entry already occupies any destination child
path (as on a first run into a fresh staging target), `copy_mole_sources`
succeeds and each direct child listed under `source_dir/mole-main/src/cpp`
is moved individually by name: afterwards every path in that child's subtree
exists under `target_dir/cpp` with identical file content, and nothing
remains under the child at its source — true move semantics.  (The
incomparability hypotheses say the staging source and destination are not
nested inside one another, as in the real pipeline layout.) -/
theorem staging_moves_children (source_dir target_dir : FsPath) (st : St)
    (hsd : leads (source_dir ++ [MOLE_DIR, "src", "cpp"])
        (target_dir ++ ["cpp"]) = false)
    (hds : leads (target_dir ++ ["cpp"])
        (source_dir ++ [MOLE_DIR, "src", "cpp"]) = false)
    (hcf : isFile st.fs (target_dir ++ ["cpp"]) = false)
    (hsrc : pathExists st.fs (source_dir ++ [MOLE_DIR, "src", "cpp"]) = true)
    (hfresh : ∀ n ∈ childNames st.fs (source_dir ++ [MOLE_DIR, "src", "cpp"]),
      noEntriesUnder st.fs ((target_dir ++ ["cpp"]) ++ [n]) = true) :
    (copy_mole_sources source_dir target_dir st).1 = .ok () ∧
    ∀ n ∈ childNames st.fs (source_dir ++ [MOLE_DIR, "src", "cpp"]),
      ∀ q : FsPath,
        isDir (copy_mole_sources source_dir target_dir st).2.fs
            (((target_dir ++ ["cpp"]) ++ [n]) ++ q)
          = isDir st.fs (((source_dir ++ [MOLE_DIR, "src", "cpp"]) ++ [n]) ++ q)
        ∧ fileContent (copy_mole_sources source_dir target_dir st).2.fs
            (((target_dir ++ ["cpp"]) ++ [n]) ++ q)
          = fileContent st.fs
              (((source_dir ++ [MOLE_DIR, "src", "cpp"]) ++ [n]) ++ q)
        ∧ pathExists (copy_mole_sources source_dir target_dir st).2.fs
            (((source_dir ++ [MOLE_DIR, "src", "cpp"]) ++ [n]) ++ q) = false := by
  have hnePaths : (source_dir ++ [MOLE_DIR, "src", "cpp"])
      ≠ (target_dir ++ ["cpp"]) := by
    intro he
    rw [he, leads_refl] at hsd
    cases hsd
  have hm : mkdir_exist_ok st.fs (target_dir ++ ["cpp"])
      = .ok (addDir st.fs (target_dir ++ ["cpp"])) := by
    unfold mkdir_exist_ok
    rw [hcf]
    rfl
  have hred : copy_mole_sources source_dir target_dir st
      = (.ok (), ⟨move_items (addDir st.fs (target_dir ++ ["cpp"]))
          (source_dir ++ [MOLE_DIR, "src", "cpp"]) (target_dir ++ ["cpp"])
          (childNames st.fs (source_dir ++ [MOLE_DIR, "src", "cpp"])),
          st.trace⟩) := by
    simp only [copy_mole_sources]
    rw [hm]
    simp only
    rw [if_pos (pathExists_addDir_self st.fs (target_dir ++ ["cpp"]))]
    rw [if_pos (by
      rw [pathExists_addDir_ne st.fs (target_dir ++ ["cpp"]) _ hnePaths]
      exact hsrc)]
    rw [childNames_addDir st.fs (target_dir ++ ["cpp"]) _ hsd]
  rw [hred]
  refine ⟨rfl, ?_⟩
  intro n hn q
  have hspec := move_items_spec (source_dir ++ [MOLE_DIR, "src", "cpp"])
    (target_dir ++ ["cpp"]) hsd hds
    (childNames st.fs (source_dir ++ [MOLE_DIR, "src", "cpp"]))
    (addDir st.fs (target_dir ++ ["cpp"]))
    (List.nodup_dedup _)
    (by
      intro m hm
      have h0 : FreshUnder st.fs ((target_dir ++ ["cpp"]) ++ [m]) :=
        noEntriesUnder_spec (hfresh m hm)
      refine FreshUnder_addDir h0 ?_
      cases hl : leads ((target_dir ++ ["cpp"]) ++ [m]) (target_dir ++ ["cpp"])
        with
      | false => rfl
      | true =>
        exfalso
        have := leads_length hl
        simp at this)
    n hn q
  have hxd : leads (target_dir ++ ["cpp"])
      (((source_dir ++ [MOLE_DIR, "src", "cpp"]) ++ [n]) ++ q) = false := by
    rw [List.append_assoc (source_dir ++ [MOLE_DIR, "src", "cpp"]) [n] q]
    exact leads_disjoint_right hds hsd ([n] ++ q)
  have hneq : (((source_dir ++ [MOLE_DIR, "src", "cpp"]) ++ [n]) ++ q)
      ≠ (target_dir ++ ["cpp"]) := by
    intro he
    rw [← he, leads_refl] at hxd
    cases hxd
  exact ⟨hspec.1.trans (isDir_addDir_ne st.fs (target_dir ++ ["cpp"]) _ hneq),
    hspec.2.1.trans (fileContent_addDir st.fs (target_dir ++ ["cpp"]) _),
    hspec.2.2⟩

/-- Claim C7, counterexample: the second end-to-end run is also a successful
pipeline run, but its staging is not content-identical: the direct child
`utils` of the fetched `src/cpp` already existed as a directory at the
staging destination (from the first run), so `shutil.move` moved the fetched
subtree INTO it — the destination gained `utils/utils`, a path that does not
exist in the fetched archive's `src/cpp/utils` child — instead of placing
the child byte-identical at `utils` by name. -/
theorem restaged_child_nested :
    run2.1 = .ok () ∧
    ["mole-main", "src", "cpp", "utils", "utils"] ∉ moleData.adirs ∧
    ["mole-main", "src", "cpp", "utils", "utils"]
      ∉ moleData.afiles.map Prod.fst ∧
    isDir run2.2.fs (stageP ++ ["utils", "utils"]) = true ∧
    fileContent run2.2.fs (stageP ++ ["utils", "utils", "u.cpp"])
      = some "utilcpp" := by
  decide

/-- Witness for the amended C7 at a concrete input: staging `stageSrcSt`
moves the child `a.cpp` to the destination with its content, removing it
from the source. -/
theorem staging_moves_children_witness :
    (copy_mole_sources ["s"] ["d"] stageSrcSt).1 = .ok () ∧
    (isDir (copy_mole_sources ["s"] ["d"] stageSrcSt).2.fs
        (((["d"] ++ ["cpp"]) ++ ["a.cpp"]) ++ [])
      = isDir stageSrcSt.fs
          (((["s"] ++ [MOLE_DIR, "src", "cpp"]) ++ ["a.cpp"]) ++ [])
    ∧ fileContent (copy_mole_sources ["s"] ["d"] stageSrcSt).2.fs
        (((["d"] ++ ["cpp"]) ++ ["a.cpp"]) ++ [])
      = fileContent stageSrcSt.fs
          (((["s"] ++ [MOLE_DIR, "src", "cpp"]) ++ ["a.cpp"]) ++ [])
    ∧ pathExists (copy_mole_sources ["s"] ["d"] stageSrcSt).2.fs
        (((["s"] ++ [MOLE_DIR, "src", "cpp"]) ++ ["a.cpp"]) ++ []) = false) :=
  ⟨(staging_moves_children ["s"] ["d"] stageSrcSt (by decide) (by decide)
      (by decide) (by decide) (by decide)).1,
   (staging_moves_children ["s"] ["d"] stageSrcSt (by decide) (by decide)
      (by decide) (by decide) (by decide)).2 "a.cpp" (by decide) []⟩
